import Mathlib

/-!
# Sea City Software website: contact pipeline and configuration validation

A shallow embedding of the Go sources `server.go`, `domain/contact_form.go`,
`domain/app_config.go`, `services/contact_form_service.go` and
`services/recaptcha_service.go`.

Modelling conventions.

* A Go `error` is an `Option String`: `none` is `nil`, `some m` is an error whose
  `Error()` text is `m`.  The handler and the validators only ever test `err != nil`
  and compare `err.Error()` with constants.
* The two collaborators of the handler (`RecaptchaService`, `ContactFormService`) are
  interfaces; an implementation is an arbitrary state transformer over a world `σ`, so
  that stateful stubs are covered.
* Go strings are modelled by Lean strings (sequences of Unicode code points).
* Library code (`regexp`, the struct validator, `fmt`, `encoding/json`) is modelled as
  far as the sources use it; library values and functions that the sources only pass
  around (the SES error codes, `url.QueryEscape`, `http.NewRequest`, the time parser)
  are parameters.
-/

namespace SeaCity

/-- A Go `error` value: `none` is `nil`, `some m` carries the text of `Error()`. -/
abbrev GoError := Option String

/-! ## `services/recaptcha_service.go`: error constants -/

def CannotCommunicateRecaptchaError : String :=
  "unable to communicate with the recaptcha service"

def NotVerifiedError : String := "user not verified by recaptcha"

/-! ## `services/contact_form_service.go`: error constants -/

def AwsSesRejectedMessageError : String := "aws ses rejected message"

def AwsSesMailFromDomainNotVerifiedError : String := "aws ses mail from domain not verified"

def AwsSesConfigurationSetDoesNotExistError : String :=
  "aws ses configuration set does not exist"

def AwsSesUnknownError : String := "aws ses unknown error"

/-! ## `domain/contact_form.go` -/

/-- The struct `domain.ContactForm`; every field carries the tag `validate:"required"`. -/
structure ContactForm where
  Name : String
  Email : String
  Company : String
  Number : String
  Message : String
  RecaptchaResponse : String
  deriving DecidableEq, Repr

/-- The `required` tag of the struct validator on a string field: the field fails when
it holds the zero value of its type, the empty string. -/
def requiredFails (value : String) : Bool := value == ""

/-- The call `validate.Struct(contactFormSubmission)`: every field of `ContactForm` is
checked against its only tag, `required`; the result lists the names of the failing
fields in declaration order.  The returned Go error is non-nil exactly when this list
is non-empty. -/
def validateStruct (form : ContactForm) : List String :=
  (if requiredFails form.Name then ["Name"] else []) ++
  (if requiredFails form.Email then ["Email"] else []) ++
  (if requiredFails form.Company then ["Company"] else []) ++
  (if requiredFails form.Number then ["Number"] else []) ++
  (if requiredFails form.Message then ["Message"] else []) ++
  (if requiredFails form.RecaptchaResponse then ["RecaptchaResponse"] else [])

/-! ## `server.go`: the `POST /contact` handler -/

/-- The collaborators held by `AppContext`: implementations of the interfaces
`RecaptchaService` and `ContactFormService`, acting on a world of type `σ`. -/
structure AppContext (σ : Type) where
  Verify : String → σ → GoError × σ
  Process : ContactForm → σ → GoError × σ

/-- An invocation of a collaborator, with its argument. -/
inductive Call where
  | verify (response : String)
  | process (form : ContactForm)
  deriving DecidableEq, Repr

/-- Levels of the interface `Logger`. -/
inductive LogLevel where
  | debug
  | info
  | warn
  | error
  deriving DecidableEq, Repr

/-- What one run of the handler produced: the status and body handed to `c.JSON`, the
collaborator invocations in order, the log lines in order, and the final world. -/
structure Outcome (σ : Type) where
  status : Nat
  body : String
  calls : List Call
  logs : List (LogLevel × String)
  world : σ

/-- The body written by `c.JSON(code, "")`: the JSON encoding of the empty string. -/
def emptyStringJSON : String := "\"\""

/-- The struct literal at the top of the handler: each field is read with
`c.FormValue`, which yields the empty string for a key that is not in the form. -/
def contactFormSubmission (formValue : String → String) : ContactForm :=
  { Name := formValue "name"
    Email := formValue "email"
    Company := formValue "company"
    Number := formValue "number"
    Message := formValue "message"
    RecaptchaResponse := formValue "g-recaptcha-response" }

/-- The body of the handler registered by `e.POST("/contact", ...)` in `RunApp`. -/
def postContact {σ : Type} (ctx : AppContext σ) (formValue : String → String) (w : σ) :
    Outcome σ :=
  let form := contactFormSubmission formValue
  if validateStruct form ≠ [] then
    { status := 400, body := emptyStringJSON, calls := [],
      logs := [(LogLevel.error, "Received an invalid contact form")], world := w }
  else
    match ctx.Verify form.RecaptchaResponse w with
    | (some errorMessage, w1) =>
      if errorMessage = CannotCommunicateRecaptchaError then
        { status := 500, body := emptyStringJSON, calls := [Call.verify form.RecaptchaResponse],
          logs := [(LogLevel.error, "Unable to communicate with Recaptcha Service")],
          world := w1 }
      else if errorMessage = NotVerifiedError then
        { status := 403, body := emptyStringJSON, calls := [Call.verify form.RecaptchaResponse],
          logs := [(LogLevel.warn,
            "Received a submit contact form request for a user not verified by Recaptcha")],
          world := w1 }
      else
        { status := 500, body := emptyStringJSON, calls := [Call.verify form.RecaptchaResponse],
          logs := [(LogLevel.warn,
            "Unexpected error verifying contact form submission with Recaptcha")],
          world := w1 }
    | (none, w1) =>
      match ctx.Process form w1 with
      | (some _, w2) =>
        { status := 500, body := emptyStringJSON,
          calls := [Call.verify form.RecaptchaResponse, Call.process form],
          logs := [(LogLevel.error, "Unable to process contact form")], world := w2 }
      | (none, w2) =>
        { status := 200, body := emptyStringJSON,
          calls := [Call.verify form.RecaptchaResponse, Call.process form],
          logs := [], world := w2 }

/-- Number of `Verify` invocations in a call sequence. -/
def verifyCount (calls : List Call) : Nat :=
  calls.countP fun c => match c with
    | Call.verify _ => true
    | Call.process _ => false

/-- Number of `Process` invocations in a call sequence. -/
def processCount (calls : List Call) : Nat :=
  calls.countP fun c => match c with
    | Call.verify _ => false
    | Call.process _ => true

/-- All six fields of a submission are non-empty. -/
def allFieldsPresent (form : ContactForm) : Prop :=
  form.Name ≠ "" ∧ form.Email ≠ "" ∧ form.Company ≠ "" ∧ form.Number ≠ "" ∧
    form.Message ≠ "" ∧ form.RecaptchaResponse ≠ ""

instance (form : ContactForm) : Decidable (allFieldsPresent form) := by
  unfold allFieldsPresent; infer_instance

/-- At least one of the six fields of a submission is the empty string. -/
def someFieldEmpty (form : ContactForm) : Prop :=
  form.Name = "" ∨ form.Email = "" ∨ form.Company = "" ∨ form.Number = "" ∨
    form.Message = "" ∨ form.RecaptchaResponse = ""

instance (form : ContactForm) : Decidable (someFieldEmpty form) := by
  unfold someFieldEmpty; infer_instance

/-- One of the five fields other than the email is the empty string. -/
def someOtherFieldEmpty (form : ContactForm) : Prop :=
  form.Name = "" ∨ form.Company = "" ∨ form.Number = "" ∨ form.Message = "" ∨
    form.RecaptchaResponse = ""

instance (form : ContactForm) : Decidable (someOtherFieldEmpty form) := by
  unfold someOtherFieldEmpty; infer_instance

/-! ## `domain/app_config.go`: error constants -/

def EmailInvalidError : String := "provided email address was not valid"

def HttpPortInvalidError : String := "provided HTTP port was not valid"

def EmailSubjectInvalidError : String := "provided email subject was invalid"

def AwsSesInvalidRegionError : String := "provided AWS SES region is invalid"

/-! ## Regular expressions

`validateEmailFormat` compiles one pattern with `regexp.MustCompile` and asks
`MatchString`.  The pattern is anchored by `^` and `$` on both sides, so `MatchString`
decides whether the whole text belongs to the language of the pattern.  The syntax
tree below has exactly the operators that the pattern uses. -/

/-- Syntax of the patterns: a character class (a list of inclusive ranges, a literal
being a one-character range), concatenation, `?`, `+`, `*` and bounded repetition. -/
inductive Regex where
  | cls (ranges : List (Char × Char))
  | seq (a b : Regex)
  | opt (a : Regex)
  | plus (a : Regex)
  | star (a : Regex)
  | rep (a : Regex) (lo hi : Nat)

/-- Membership of a character in a class given by inclusive ranges. -/
def inClass (ranges : List (Char × Char)) (c : Char) : Bool :=
  ranges.any fun r => decide (r.1 ≤ c) && decide (c ≤ r.2)

/-- Between `lo` and `hi` iterations of `step`: every text that can remain. -/
def repRun (step : List Char → List (List Char)) : Nat → Nat → List Char → List (List Char)
  | lo, 0, s => if lo = 0 then [s] else []
  | lo, hi + 1, s =>
    (if lo = 0 then [s] else []) ++ (step s).flatMap (repRun step (lo - 1) hi)

/-- At most `fuel` iterations of `step`: every text that can remain. -/
def starRun (step : List Char → List (List Char)) : Nat → List Char → List (List Char)
  | 0, s => [s]
  | fuel + 1, s => s :: (step s).flatMap (starRun step fuel)

/-- All the ways a pattern can match a prefix of the text `s`: the list of the texts
that remain after the matched prefix.  A `*` or `+` is given as many iterations as the
text has characters, which is enough since an iteration that consumes nothing adds no
new remainder (`Regex.MatchString_iff` below proves that nothing is lost). -/
def Regex.run : Regex → List Char → List (List Char)
  | .cls ranges, s =>
    match s with
    | [] => []
    | c :: t => if inClass ranges c then [t] else []
  | .seq a b, s => (a.run s).flatMap b.run
  | .opt a, s => s :: a.run s
  | .plus a, s => (a.run s).flatMap (starRun a.run s.length)
  | .star a, s => starRun a.run s.length s
  | .rep a lo hi, s => repRun a.run lo hi s

/-- The method `MatchString` for a pattern anchored at both ends: some way of matching
a prefix leaves nothing of the text. -/
def Regex.MatchString (r : Regex) (s : String) : Bool :=
  (r.run s.toList).any List.isEmpty

/-- The language of a pattern, the reference semantics of `Regex.run`. -/
def Regex.Lang : Regex → List Char → Prop
  | .cls ranges, w => ∃ c, inClass ranges c = true ∧ w = [c]
  | .seq a b, w => ∃ u v, a.Lang u ∧ b.Lang v ∧ w = u ++ v
  | .opt a, w => w = [] ∨ a.Lang w
  | .plus a, w => ∃ (u : List Char) (L : List (List Char)), a.Lang u ∧ (∀ x ∈ L, a.Lang x) ∧ w = u ++ L.flatten
  | .star a, w => ∃ L : List (List Char), (∀ x ∈ L, a.Lang x) ∧ w = L.flatten
  | .rep a lo hi, w =>
    ∃ L : List (List Char), lo ≤ L.length ∧ L.length ≤ hi ∧ (∀ x ∈ L, a.Lang x) ∧ w = L.flatten

/-- The class `[a-zA-Z0-9]`. -/
def alnum : List (Char × Char) := [('a', 'z'), ('A', 'Z'), ('0', '9')]

/-- The class `[a-zA-Z0-9-]`. -/
def alnumHyphen : List (Char × Char) := alnum ++ [('-', '-')]

/-- The class of the local part: letters, digits and the characters
. ! # $ % & (apostrophe) * + / = ? ^ _ (backquote) (left brace) | (right brace) ~ - -/
def localClass : List (Char × Char) :=
  alnum ++ [('.', '.'), ('!', '!'), ('#', '#'), ('$', '$'), ('%', '%'), ('&', '&'),
    (Char.ofNat 39, Char.ofNat 39), ('*', '*'), ('+', '+'), ('/', '/'), ('=', '='),
    ('?', '?'), ('^', '^'), ('_', '_'), (Char.ofNat 96, Char.ofNat 96),
    (Char.ofNat 123, Char.ofNat 123), ('|', '|'), (Char.ofNat 125, Char.ofNat 125),
    ('~', '~'), ('-', '-')]

/-- A single literal character. -/
def lit (c : Char) : Regex := .cls [(c, c)]

/-- The sub-pattern `[a-zA-Z0-9](?:[a-zA-Z0-9-]{0,61}[a-zA-Z0-9])?`, one domain label. -/
def domainLabel : Regex :=
  .seq (.cls alnum) (.opt (.seq (.rep (.cls alnumHyphen) 0 61) (.cls alnum)))

/-- The sub-pattern after the `@`: a label, then any number of `\.` followed by a
label. -/
def domainPattern : Regex :=
  .seq domainLabel (.star (.seq (lit '.') domainLabel))

/-- The pattern compiled in `validateEmailFormat`: a local part of one or more
characters of `localClass`, the character `@`, and the domain. -/
def emailFormatRegex : Regex :=
  .seq (.plus (.cls localClass)) (.seq (lit '@') domainPattern)

/-! ## `domain/app_config.go`: validation -/

/-- The function `validateEmailFormat`. -/
def validateEmailFormat (email : String) : GoError :=
  if !emailFormatRegex.MatchString email then some EmailInvalidError else none

/-- The struct `domain.EmailConfig`. -/
structure EmailConfig where
  Sender : String
  Recipient : String
  Subject : String
  AwsSesRegion : String
  AwsSesAccessKey : String
  AwsSesSecretKey : String
  deriving DecidableEq, Repr

/-- The method `EmailConfig.Validate`; `len` of a Go string is its length in bytes. -/
def EmailConfig.Validate (emailConfig : EmailConfig) : GoError :=
  match validateEmailFormat emailConfig.Sender with
  | some e => some e
  | none =>
    match validateEmailFormat emailConfig.Recipient with
    | some e => some e
    | none =>
      if emailConfig.Subject.utf8ByteSize ≤ 0 then some EmailSubjectInvalidError
      else if emailConfig.AwsSesRegion.utf8ByteSize ≤ 0 then some AwsSesInvalidRegionError
      else none

/-- The struct `domain.AppConfig`.  `HttpPort` is a Go `int`; `EmailConfig` is a
pointer, `none` being the nil pointer. -/
structure AppConfig where
  HttpPort : Int
  FrontendDir : String
  EmailConfig : Option EmailConfig
  RecaptchaSecret : String
  deriving DecidableEq, Repr

/-- How a call ends: it returns its error value, or it panics. -/
inductive Completion where
  | returned (err : GoError)
  | panicked
  deriving DecidableEq, Repr

/-- The method `AppConfig.Validate`.  Calling `EmailConfig.Validate` through a nil
pointer panics when the method reads the first field. -/
def AppConfig.Validate (appConfig : AppConfig) : Completion :=
  if appConfig.HttpPort = 0 then Completion.returned (some HttpPortInvalidError)
  else
    match appConfig.EmailConfig with
    | none => Completion.panicked
    | some emailConfig => Completion.returned emailConfig.Validate

/-- Two adjacent `.` characters occur somewhere in the text. -/
def hasConsecutiveDots (s : List Char) : Prop := ['.', '.'] <:+: s

/-- A scan for two adjacent `.` characters, the computational form of
`hasConsecutiveDots`. -/
def adjacentDots : List Char → Bool
  | a :: b :: t => (a == '.' && b == '.') || adjacentDots (b :: t)
  | _ => false

instance (s : List Char) : Decidable (hasConsecutiveDots s) := by
  unfold hasConsecutiveDots; infer_instance

/-- An address is malformed when the pattern of `validateEmailFormat` does not match. -/
def malformedEmail (s : String) : Prop := emailFormatRegex.MatchString s = false

instance (s : String) : Decidable (malformedEmail s) := by
  unfold malformedEmail; infer_instance

/-! ## `fmt.Sprintf`, for the verbs that the sources use

The two format strings of `services/contact_form_service.go` contain the verb `%s`
only, applied to string operands. -/

/-- The text that `Sprintf` appends when operands are left over. -/
def sprintfExtra (args : List String) : List Char :=
  ("%!(EXTRA " ++ ", ".intercalate (args.map fun a => "string=" ++ a) ++ ")").toList

/-- The function `fmt.Sprintf` on string operands: `%s` writes the next operand as it
is (or `%!s(MISSING)` when none is left), `%%` writes a percent sign, a `%` that ends
the format writes `%!(NOVERB)`, any other character is copied, and operands that are
left over are reported at the end.  The result is `none` for a verb other than `%s`. -/
def sprintfChars : List Char → List String → Option (List Char)
  | [], [] => some []
  | [], a :: args => some (sprintfExtra (a :: args))
  | ['%'], _ => some "%!(NOVERB)".toList
  | '%' :: 's' :: rest, [] =>
    (sprintfChars rest []).map fun out => "%!s(MISSING)".toList ++ out
  | '%' :: 's' :: rest, a :: args =>
    (sprintfChars rest args).map fun out => a.toList ++ out
  | '%' :: '%' :: rest, args => (sprintfChars rest args).map fun out => '%' :: out
  | '%' :: _ :: _, _ => none
  | c :: rest, args => (sprintfChars rest args).map fun out => c :: out

/-- The function `fmt.Sprintf` as the sources call it; the formats of the sources use
`%s` only, so the default is never taken there. -/
def Sprintf (format : String) (args : List String) : String :=
  match sprintfChars format.toList args with
  | some out => String.mk out
  | none => ""

/-! ## `services/contact_form_service.go` -/

/-- The constant `emailTemplate`, a raw string literal of seven lines. -/
def emailTemplate : String :=
  "\nName: %s\nEmail: %s\nCompany: %s\nContact Number: %s\nMessage: %s\n"

/-- The function `contactFormToEmailBody`. -/
def contactFormToEmailBody (contactForm : ContactForm) : String :=
  Sprintf emailTemplate
    [contactForm.Name, contactForm.Email, contactForm.Company, contactForm.Number,
      contactForm.Message]

/-- The struct `ses.Content`. -/
structure Content where
  Charset : String
  Data : String
  deriving DecidableEq, Repr

/-- The struct `ses.SendEmailInput`, with the fields that `Process` fills in. -/
structure SendEmailInput where
  CcAddresses : List String
  ToAddresses : List String
  Html : Content
  Text : Content
  Subject : Content
  Source : String
  deriving DecidableEq, Repr

/-- The struct `ses.SendEmailOutput`; `MessageId` is a pointer. -/
structure SendEmailOutput where
  MessageId : Option String
  deriving DecidableEq, Repr

/-- A non-nil error returned by `SendEmail`: a provider error, which implements
`awserr.Error` and has a code, or any other error.  `text` is the result of `Error()`. -/
inductive SendEmailError where
  | awserr (code : String) (text : String)
  | other (text : String)
  deriving DecidableEq, Repr

/-- The result of `sesClient.SendEmail`. -/
inductive SendEmailResult where
  | ok (result : SendEmailOutput)
  | failed (err : SendEmailError)
  deriving DecidableEq, Repr

/-- The three error codes of the package `ses` that `Process` names.  Their values are
declared in the AWS library, outside these sources, so they are a parameter here; being
the cases of one `switch`, they are different from one another. -/
structure SesErrCodes where
  ErrCodeMessageRejected : String
  ErrCodeMailFromDomainNotVerifiedException : String
  ErrCodeConfigurationSetDoesNotExistException : String
  deriving DecidableEq, Repr

/-- The three codes are different from one another. -/
def SesErrCodes.distinct (codes : SesErrCodes) : Prop :=
  codes.ErrCodeMessageRejected ≠ codes.ErrCodeMailFromDomainNotVerifiedException ∧
    codes.ErrCodeMessageRejected ≠ codes.ErrCodeConfigurationSetDoesNotExistException ∧
    codes.ErrCodeMailFromDomainNotVerifiedException ≠
      codes.ErrCodeConfigurationSetDoesNotExistException

instance (codes : SesErrCodes) : Decidable codes.distinct := by
  unfold SesErrCodes.distinct; infer_instance

/-- A call of the logger: level, message and fields. -/
structure LogEntry where
  level : LogLevel
  message : String
  fields : List (String × String)
  deriving DecidableEq, Repr

/-- The struct `ContactFormEmailService`: the email configuration and the SES client,
whose method `SendEmail` acts on a world of type `σ`. -/
structure ContactFormEmailService (σ : Type) where
  EmailConfig : EmailConfig
  SendEmail : SendEmailInput → σ → SendEmailResult × σ

/-- What one call of `Process` produced: the returned error, the log lines and the
final world. -/
structure ProcessOutcome (σ : Type) where
  err : GoError
  logs : List LogEntry
  world : σ

/-- The method `logSendEmailError`. -/
def logSendEmailError (textBody reason error : String) : LogEntry :=
  { level := LogLevel.error, message := "unable to send email",
    fields := [("email", textBody), ("reason", reason), ("error", error)] }

/-- The request that `Process` builds for a contact form. -/
def sendEmailInput (emailConfig : EmailConfig) (contactForm : ContactForm) :
    SendEmailInput :=
  { CcAddresses := []
    ToAddresses := [emailConfig.Recipient]
    Html := { Charset := "UTF-8", Data := contactFormToEmailBody contactForm }
    Text := { Charset := "UTF-8", Data := contactFormToEmailBody contactForm }
    Subject := { Charset := "UTF-8", Data := emailConfig.Subject }
    Source := emailConfig.Sender }

/-- The method `ContactFormEmailService.Process`. -/
def ContactFormEmailService.Process {σ : Type} (codes : SesErrCodes)
    (service : ContactFormEmailService σ) (contactForm : ContactForm) (w : σ) :
    ProcessOutcome σ :=
  let textBody := contactFormToEmailBody contactForm
  match service.SendEmail (sendEmailInput service.EmailConfig contactForm) w with
  | (SendEmailResult.failed (SendEmailError.awserr code text), w1) =>
    if code = codes.ErrCodeMessageRejected then
      { err := some AwsSesRejectedMessageError,
        logs := [logSendEmailError textBody codes.ErrCodeMessageRejected text], world := w1 }
    else if code = codes.ErrCodeMailFromDomainNotVerifiedException then
      { err := some AwsSesMailFromDomainNotVerifiedError,
        logs := [logSendEmailError textBody codes.ErrCodeMailFromDomainNotVerifiedException
          text],
        world := w1 }
    else if code = codes.ErrCodeConfigurationSetDoesNotExistException then
      { err := some AwsSesConfigurationSetDoesNotExistError,
        logs := [logSendEmailError textBody
          codes.ErrCodeConfigurationSetDoesNotExistException text],
        world := w1 }
    else
      { err := some AwsSesUnknownError,
        logs := [logSendEmailError textBody "UNKNOWN" text], world := w1 }
  | (SendEmailResult.failed (SendEmailError.other text), w1) =>
    { err := some AwsSesUnknownError,
      logs := [logSendEmailError textBody "UNKNOWN" text], world := w1 }
  | (SendEmailResult.ok result, w1) =>
    match result.MessageId with
    | some id =>
      { err := none,
        logs := [{ level := LogLevel.info,
                   message := Sprintf "Contact form email sent with id \x27%s\x27" [id],
                   fields := [] }],
        world := w1 }
    | none =>
      { err := none,
        logs := [{ level := LogLevel.info,
                   message := "Contact form email sent with but no message ID was provided",
                   fields := [] }],
        world := w1 }

/-- The four error messages that `Process` can return. -/
def senderErrors : List String :=
  [AwsSesRejectedMessageError, AwsSesMailFromDomainNotVerifiedError,
    AwsSesConfigurationSetDoesNotExistError, AwsSesUnknownError]

/-- What `sesClient.SendEmail` returned to `Process` for a contact form. -/
def sendEmailResult {σ : Type} (service : ContactFormEmailService σ)
    (contactForm : ContactForm) (w : σ) : SendEmailResult :=
  (service.SendEmail (sendEmailInput service.EmailConfig contactForm) w).1

/-! ## `encoding/json`, as far as `RecaptchaResponse` needs it

The decoder is the library's; what the sources contribute is the struct with its
`json` tags and the value that `NewBlankRecaptchaResponse` builds.  The model below
starts from a JSON value that has already been read, and follows the library in
assigning it to the struct: keys are matched with the tags exactly or else without
regard to case, a JSON null leaves a field as it is (and makes a slice nil), a value of
the wrong kind is recorded as an error while the decoding goes on, and an error of
`time.Time.UnmarshalJSON` stops the decoding. -/

/-- A JSON value.  A number keeps its literal text. -/
inductive Json where
  | null
  | bool (b : Bool)
  | number (literal : String)
  | string (s : String)
  | array (elems : List Json)
  | object (members : List (String × Json))

/-- The name that the errors of the decoder give to the kind of a JSON value. -/
def Json.kind : Json → String
  | .null => "null"
  | .bool _ => "bool"
  | .number _ => "number"
  | .string _ => "string"
  | .array _ => "array"
  | .object _ => "object"

/-- What the sources use of the package `time`: the zero value `time.Time{}` and the
reading of a JSON string as an RFC3339 time by `Time.UnmarshalJSON`.  The package is the
library's, so it is a parameter here. -/
structure TimeLib (Time : Type) where
  zero : Time
  parseRFC3339 : String → Option Time

/-- The struct `RecaptchaResponse`.  `ErrorCodes` is a slice: `none` is the nil slice,
`some []` the empty slice that is not nil. -/
structure RecaptchaResponse (Time : Type) where
  Success : Bool
  ChallengeTimestamp : Time
  HostName : String
  ErrorCodes : Option (List String)

/-- The function `NewBlankRecaptchaResponse`. -/
def NewBlankRecaptchaResponse {Time : Type} (time : TimeLib Time) : RecaptchaResponse Time :=
  { Success := false
    ChallengeTimestamp := time.zero
    HostName := ""
    ErrorCodes := some [] }

/-- The fields of `RecaptchaResponse`, in declaration order. -/
inductive Field where
  | Success
  | ChallengeTimestamp
  | HostName
  | ErrorCodes
  deriving DecidableEq, Repr

/-- The `json` tag of each field. -/
def Field.tag : Field → String
  | .Success => "success"
  | .ChallengeTimestamp => "challenge_ts"
  | .HostName => "hostname"
  | .ErrorCodes => "error-codes"

/-- All fields, in declaration order. -/
def allFields : List Field :=
  [Field.Success, Field.ChallengeTimestamp, Field.HostName, Field.ErrorCodes]

/-- The library's `equalFoldRight`, which it uses for a tag that contains the letter
`s` or `k`, as all four tags do: an ASCII character of the key matches the character of
the tag when they are equal or are the two cases of one letter, and the only other
characters that match are the long s (U+017F) for `s` and the Kelvin sign (U+212A) for
`k`. -/
def equalFoldRight : List Char → List Char → Bool
  | [], t => t.isEmpty
  | _ :: _, [] => false
  | sb :: s, tb :: t =>
    if tb.toNat < 128 then
      if sb = tb then equalFoldRight s t
      else if 65 ≤ sb.toNat &&& 223 ∧ sb.toNat &&& 223 ≤ 90 then
        if sb.toNat &&& 223 = tb.toNat &&& 223 then equalFoldRight s t else false
      else false
    else if sb = 's' ∨ sb = 'S' then
      if tb = Char.ofNat 383 then equalFoldRight s t else false
    else if sb = 'k' ∨ sb = 'K' then
      if tb = Char.ofNat 8490 then equalFoldRight s t else false
    else false

/-- The field that a key of a JSON object is assigned to: the field whose tag is the
key, or else the first field whose tag matches the key without regard to case. -/
def lookupField (key : String) : Option Field :=
  match allFields.find? fun f => f.tag = key with
  | some f => some f
  | none => allFields.find? fun f => equalFoldRight f.tag.toList key.toList

/-- The text of the library's error for a value of the wrong kind. -/
def unmarshalTypeError (value : Json) (tag goType : String) : String :=
  "json: cannot unmarshal " ++ value.kind ++ " into Go struct field RecaptchaResponse." ++
    tag ++ " of type " ++ goType

/-- An element of a JSON array read into a string slice that starts empty, as the one
of `NewBlankRecaptchaResponse` does: a string gives its text; a null or a value of the
wrong kind leaves the empty string of the new element. -/
def elemString : Json → String
  | .string s => s
  | _ => ""

/-- The error of reading an element of a JSON array into a string, if any. -/
def elemError : Json → GoError
  | .string _ => none
  | .null => none
  | v => some (unmarshalTypeError v "error-codes" "string")

/-- What the decoding of one member of the object did: it went on, perhaps with an
error to record, or it stopped with an error. -/
inductive MemberResult (Time : Type) where
  | next (r : RecaptchaResponse Time) (err : GoError)
  | abort (r : RecaptchaResponse Time) (err : String)

/-- The decoding of one member of a JSON object into the struct.  For a JSON array the
slice is reset and filled with the elements in order; an empty array gives the empty
slice that is not nil. -/
def decodeMember {Time : Type} (time : TimeLib Time) (key : String) (value : Json)
    (r : RecaptchaResponse Time) : MemberResult Time :=
  match lookupField key with
  | none => MemberResult.next r none
  | some Field.Success =>
    match value with
    | .bool b => MemberResult.next { r with Success := b } none
    | .null => MemberResult.next r none
    | v => MemberResult.next r (some (unmarshalTypeError v "success" "bool"))
  | some Field.ChallengeTimestamp =>
    match value with
    | .null => MemberResult.next r none
    | .string s =>
      match time.parseRFC3339 s with
      | some t => MemberResult.next { r with ChallengeTimestamp := t } none
      | none => MemberResult.abort r ("parsing time \"" ++ s ++ "\" as RFC3339")
    | _ => MemberResult.abort r "Time.UnmarshalJSON: input is not a JSON string"
  | some Field.HostName =>
    match value with
    | .string s => MemberResult.next { r with HostName := s } none
    | .null => MemberResult.next r none
    | v => MemberResult.next r (some (unmarshalTypeError v "hostname" "string"))
  | some Field.ErrorCodes =>
    match value with
    | .array elems =>
      MemberResult.next { r with ErrorCodes := some (elems.map elemString) }
        (elems.findSome? elemError)
    | .null => MemberResult.next { r with ErrorCodes := none } none
    | v => MemberResult.next r (some (unmarshalTypeError v "error-codes" "[]string"))

/-- The struct as the decoding of one member left it. -/
def MemberResult.struct {Time : Type} : MemberResult Time → RecaptchaResponse Time
  | .next r _ => r
  | .abort r _ => r

/-- The decoding of the members of a JSON object, in order; `saved` is the first error
recorded so far, which later errors do not replace. -/
def decodeMembers {Time : Type} (time : TimeLib Time) :
    List (String × Json) → RecaptchaResponse Time → GoError → RecaptchaResponse Time × GoError
  | [], r, saved => (r, saved)
  | (key, value) :: rest, r, saved =>
    match decodeMember time key value r with
    | MemberResult.next r1 err => decodeMembers time rest r1 (saved.orElse fun _ => err)
    | MemberResult.abort r1 err => (r1, some err)

/-- The function `json.Unmarshal` (and `Decoder.Decode`) into a `*RecaptchaResponse`:
the struct after the decoding and the returned error. -/
def Unmarshal {Time : Type} (time : TimeLib Time) (value : Json) (r : RecaptchaResponse Time) :
    RecaptchaResponse Time × GoError :=
  match value with
  | .object members => decodeMembers time members r none
  | .null => (r, none)
  | v => (r, some ("json: cannot unmarshal " ++ v.kind ++
      " into Go value of type services.RecaptchaResponse"))

/-- No member of the object is assigned to the field: the key of the field is absent. -/
def keyAbsent (field : Field) (members : List (String × Json)) : Prop :=
  ∀ kv ∈ members, lookupField kv.1 ≠ some field

instance (field : Field) (members : List (String × Json)) :
    Decidable (keyAbsent field members) := by
  unfold keyAbsent; infer_instance

/-! ## `services/recaptcha_service.go` -/

def recaptchaServiceURL : String := "https://www.google.com/recaptcha/api/siteverify"

/-- The struct `http.Request`, with what `http.NewRequest` is given. -/
structure Request where
  Method : String
  URL : String
  deriving DecidableEq, Repr

/-- What the sources use of the packages `net/url` and `net/http` before the request is
sent: `url.QueryEscape`, and `http.NewRequest` with a nil body, which returns a request
or an error.  The packages are the library's, so they are a parameter here. -/
structure NetLib where
  QueryEscape : String → String
  NewRequest : String → String → Except String Request

/-- What `decoder.Decode` finds in the body of a response: no JSON value (the body is
empty or is not JSON, with the text of the error), or the JSON value that it holds. -/
inductive Body where
  | invalid (text : String)
  | value (v : Json)

/-- The result of `HttpClient.Do`: a transport error, with its text, or a response. -/
inductive DoResult where
  | failed (text : String)
  | response (body : Body)

/-- The struct `DefaultRecaptchaService`: the secret and the HTTP client, whose method
`Do` acts on a world of type `σ`. -/
structure DefaultRecaptchaService (σ : Type) where
  Secret : String
  Do : Request → σ → DoResult × σ

/-- What one call of `Verify` produced: the returned error, the log lines and the
final world. -/
structure VerifyOutcome (σ : Type) where
  err : GoError
  logs : List LogEntry
  world : σ

/-- The URL that `Verify` requests. -/
def requestURL (net : NetLib) (secret response : String) : String :=
  Sprintf "%s?secret=%s&response=%s"
    [recaptchaServiceURL, net.QueryEscape secret, net.QueryEscape response]

/-- The method `DefaultRecaptchaService.Verify`. -/
def DefaultRecaptchaService.Verify {σ Time : Type} (net : NetLib) (time : TimeLib Time)
    (rs : DefaultRecaptchaService σ) (response : String) (w : σ) : VerifyOutcome σ :=
  match net.NewRequest "POST" (requestURL net rs.Secret response) with
  | Except.error text => { err := some text, logs := [], world := w }
  | Except.ok request =>
    match rs.Do request w with
    | (DoResult.failed text, w1) =>
      { err := some CannotCommunicateRecaptchaError,
        logs := [{ level := LogLevel.debug,
                   message := "Unable to communicate with Recaptcha verify service",
                   fields := [("url", recaptchaServiceURL), ("error", text)] }],
        world := w1 }
    | (DoResult.response (Body.invalid text), w1) =>
      { err := some CannotCommunicateRecaptchaError,
        logs := [{ level := LogLevel.debug,
                   message := "Recaptcha service responded with invalid JSON",
                   fields := [("url", recaptchaServiceURL), ("error", text)] }],
        world := w1 }
    | (DoResult.response (Body.value v), w1) =>
      match Unmarshal time v (NewBlankRecaptchaResponse time) with
      | (_, some text) =>
        { err := some CannotCommunicateRecaptchaError,
          logs := [{ level := LogLevel.debug,
                     message := "Recaptcha service responded with invalid JSON",
                     fields := [("url", recaptchaServiceURL), ("error", text)] }],
          world := w1 }
      | (recaptchaResponse, none) =>
        if !recaptchaResponse.Success then
          { err := some NotVerifiedError, logs := [], world := w1 }
        else { err := none, logs := [], world := w1 }

/-! ## Concrete inputs used to exercise the theorems -/

/-- A stub context over a counter world: both collaborators return the given error
values and count their invocations. -/
def stubsReturning (verifier sender : GoError) : AppContext Nat :=
  { Verify := fun _ n => (verifier, n + 1)
    Process := fun _ n => (sender, n + 1) }

/-- A form in which every field is filled in. -/
def filledForm : String → String := fun key =>
  if key = "name" then "Bob"
  else if key = "email" then "bob@someemail.com"
  else if key = "company" then "Bobcorp"
  else if key = "number" then "12345678"
  else if key = "message" then "Hey there!"
  else if key = "g-recaptcha-response" then "token"
  else ""

/-- A form like `filledForm` but without the key `name`. -/
def formWithoutName : String → String := fun key =>
  if key = "name" then "" else filledForm key

/-- A form like `filledForm` whose email field is not an email address. -/
def formWithBadEmail : String → String := fun key =>
  if key = "email" then "not-an-email" else filledForm key

/-- An email configuration that passes every check. -/
def goodEmailConfig : EmailConfig :=
  { Sender := "noreply@example.com"
    Recipient := "hello@example.org"
    Subject := "Contact form"
    AwsSesRegion := "eu-west-1"
    AwsSesAccessKey := "key"
    AwsSesSecretKey := "secret" }

/-- An email configuration in which every check would fail. -/
def badEmailConfig : EmailConfig :=
  { Sender := ""
    Recipient := "nobody"
    Subject := ""
    AwsSesRegion := ""
    AwsSesAccessKey := ""
    AwsSesSecretKey := "" }

/-- The values that the three error codes have in the AWS library. -/
def awsErrCodes : SesErrCodes :=
  { ErrCodeMessageRejected := "MessageRejected"
    ErrCodeMailFromDomainNotVerifiedException := "MailFromDomainNotVerifiedException"
    ErrCodeConfigurationSetDoesNotExistException := "ConfigurationSetDoesNotExist" }

/-- An email service over a counter world whose SES client returns the given result. -/
def serviceReturning (result : SendEmailResult) : ContactFormEmailService Nat :=
  { EmailConfig := goodEmailConfig
    SendEmail := fun _ n => (result, n + 1) }

/-- The submission of the test `TestAContactPageCanBeSubmitted`. -/
def testContactForm : ContactForm :=
  { Name := "Bob"
    Email := "bob@someemail.com"
    Company := "Bobcorp"
    Number := "12345678"
    Message := "Hey there!"
    RecaptchaResponse := "" }

/-- The form values that carry the submission of the test
`TestAContactPageCanBeSubmitted`: five fields filled in, no challenge token. -/
def testFormValue : String → String := fun key =>
  if key = "name" then testContactForm.Name
  else if key = "email" then testContactForm.Email
  else if key = "company" then testContactForm.Company
  else if key = "number" then testContactForm.Number
  else if key = "message" then testContactForm.Message
  else if key = "g-recaptcha-response" then testContactForm.RecaptchaResponse
  else ""

/-- A toy time library: times are seconds since 1970, and the one timestamp of the
tests of the repository is the only text that parses. -/
def testTimeLib : TimeLib Nat :=
  { zero := 0
    parseRFC3339 := fun s => if s = "2018-08-08T13:32:16Z" then some 1533735136 else none }

/-- A toy network library: nothing is escaped and every request can be built. -/
def testNetLib : NetLib :=
  { QueryEscape := fun s => s
    NewRequest := fun method url => Except.ok { Method := method, URL := url } }

/-- A recaptcha service over a counter world whose HTTP client returns the given
result. -/
def recaptchaReturning (result : DoResult) : DefaultRecaptchaService Nat :=
  { Secret := "secret"
    Do := fun _ n => (result, n + 1) }

/-- The JSON object of the test `TestSuccessRecaptchaResponseCanBeUnMarshalled`. -/
def successJson : Json :=
  Json.object [("success", Json.bool true),
    ("challenge_ts", Json.string "2018-08-08T13:32:16Z"),
    ("hostname", Json.string "localhost")]

/-- The JSON object of the test `TestErrorRecaptchaResponseCanBeUnMarshalled`. -/
def errorJson : Json :=
  Json.object [("success", Json.bool false),
    ("challenge_ts", Json.string "2018-08-08T13:32:16Z"),
    ("hostname", Json.string "localhost"),
    ("error-codes",
      Json.array [Json.string "missing-input-secret", Json.string "missing-input-response"])]

end SeaCity

/-! # Theorems -/

namespace SeaCity

/-! ## The `POST /contact` handler -/

/-- Shape validation reports no failure exactly when every field is non-empty. -/
theorem validateStruct_eq_nil_iff (form : ContactForm) :
    validateStruct form = [] ↔ allFieldsPresent form := by
  unfold validateStruct allFieldsPresent requiredFails
  by_cases h1 : form.Name = "" <;> by_cases h2 : form.Email = "" <;>
    by_cases h3 : form.Company = "" <;> by_cases h4 : form.Number = "" <;>
    by_cases h5 : form.Message = "" <;> by_cases h6 : form.RecaptchaResponse = "" <;>
    simp [h1, h2, h3, h4, h5, h6]

/-- Some field is empty exactly when not every field is present. -/
theorem someFieldEmpty_iff (form : ContactForm) :
    someFieldEmpty form ↔ ¬ allFieldsPresent form := by
  unfold someFieldEmpty allFieldsPresent
  tauto

/-- C1: when at least one of the six fields of the submission is the empty string, the
handler answers 400 and invokes neither `Verify` nor `Process` (zero invocations of
each), whatever the collaborators would have done; the world is left untouched. -/
theorem C1_empty_field_rejected {σ : Type} (ctx : AppContext σ)
    (formValue : String → String) (w : σ)
    (h : someFieldEmpty (contactFormSubmission formValue)) :
    (postContact ctx formValue w).status = 400 ∧
      (postContact ctx formValue w).calls = [] ∧
      verifyCount (postContact ctx formValue w).calls = 0 ∧
      processCount (postContact ctx formValue w).calls = 0 ∧
      (postContact ctx formValue w).world = w := by
  have hv : validateStruct (contactFormSubmission formValue) ≠ [] := by
    rw [Ne, validateStruct_eq_nil_iff, ← someFieldEmpty_iff]; exact h
  simp [postContact, hv, verifyCount, processCount]

/-- C1 at a form without a name, with stubs that count their invocations. -/
theorem C1_empty_field_rejected_witness :
    someFieldEmpty (contactFormSubmission formWithoutName) ∧
      (postContact (stubsReturning none none) formWithoutName 0).status = 400 ∧
      (postContact (stubsReturning none none) formWithoutName 0).calls = [] ∧
      verifyCount (postContact (stubsReturning none none) formWithoutName 0).calls = 0 ∧
      processCount (postContact (stubsReturning none none) formWithoutName 0).calls = 0 ∧
      (postContact (stubsReturning none none) formWithoutName 0).world = 0 :=
  ⟨by decide, C1_empty_field_rejected (stubsReturning none none) formWithoutName 0 (by decide)⟩

/-- The two error texts of the verifier are different. -/
theorem notVerified_ne_cannotCommunicate :
    NotVerifiedError ≠ CannotCommunicateRecaptchaError := by decide

/-- The status answered by the handler, as a decision tree over the results of the
collaborators. -/
theorem postContact_status {σ : Type} (ctx : AppContext σ) (formValue : String → String)
    (w : σ) :
    (postContact ctx formValue w).status =
      if validateStruct (contactFormSubmission formValue) ≠ [] then 400
      else
        match (ctx.Verify (contactFormSubmission formValue).RecaptchaResponse w).1 with
        | some e =>
          if e = CannotCommunicateRecaptchaError then 500
          else if e = NotVerifiedError then 403 else 500
        | none =>
          match (ctx.Process (contactFormSubmission formValue)
            (ctx.Verify (contactFormSubmission formValue).RecaptchaResponse w).2).1 with
          | some _ => 500
          | none => 200 := by
  unfold postContact
  by_cases hv : validateStruct (contactFormSubmission formValue) = []
  · rcases hver : ctx.Verify (contactFormSubmission formValue).RecaptchaResponse w with
      ⟨_ | e, w1⟩
    · rcases hpro : ctx.Process (contactFormSubmission formValue) w1 with ⟨_ | e, w2⟩ <;>
        simp [hv, hver, hpro]
    · by_cases h1 : e = CannotCommunicateRecaptchaError
      · simp [hv, hver, h1]
      · by_cases h2 : e = NotVerifiedError <;>
          simp [hv, hver, h1, h2, notVerified_ne_cannotCommunicate]
  · simp [hv]

/-- The invocations made by the handler, as a decision tree over the result of
`Verify`. -/
theorem postContact_calls {σ : Type} (ctx : AppContext σ) (formValue : String → String)
    (w : σ) :
    (postContact ctx formValue w).calls =
      if validateStruct (contactFormSubmission formValue) ≠ [] then []
      else
        match (ctx.Verify (contactFormSubmission formValue).RecaptchaResponse w).1 with
        | some _ => [Call.verify (contactFormSubmission formValue).RecaptchaResponse]
        | none =>
          [Call.verify (contactFormSubmission formValue).RecaptchaResponse,
            Call.process (contactFormSubmission formValue)] := by
  unfold postContact
  by_cases hv : validateStruct (contactFormSubmission formValue) = []
  · rcases hver : ctx.Verify (contactFormSubmission formValue).RecaptchaResponse w with
      ⟨_ | e, w1⟩
    · rcases hpro : ctx.Process (contactFormSubmission formValue) w1 with ⟨_ | e, w2⟩ <;>
        simp [hv, hver, hpro]
    · by_cases h1 : e = CannotCommunicateRecaptchaError
      · simp [hv, hver, h1]
      · by_cases h2 : e = NotVerifiedError <;>
          simp [hv, hver, h1, h2, notVerified_ne_cannotCommunicate]
  · simp [hv]

/-- C2: the invocations made by one run of the handler form a prefix of
`[Verify token, Process submission]`; `Process` is invoked only when the fields are
all present and `Verify` returned no error (so not after any error of `Verify`, known
or unknown); and each collaborator is invoked at most once. -/
theorem C2_calls_prefix {σ : Type} (ctx : AppContext σ) (formValue : String → String)
    (w : σ) :
    (postContact ctx formValue w).calls <+:
        [Call.verify (contactFormSubmission formValue).RecaptchaResponse,
          Call.process (contactFormSubmission formValue)] ∧
      (processCount (postContact ctx formValue w).calls ≠ 0 →
        allFieldsPresent (contactFormSubmission formValue) ∧
          (ctx.Verify (contactFormSubmission formValue).RecaptchaResponse w).1 = none) ∧
      verifyCount (postContact ctx formValue w).calls ≤ 1 ∧
      processCount (postContact ctx formValue w).calls ≤ 1 := by
  rw [postContact_calls]
  by_cases hv : validateStruct (contactFormSubmission formValue) = []
  · have hp := (validateStruct_eq_nil_iff _).1 hv
    rcases hver : (ctx.Verify (contactFormSubmission formValue).RecaptchaResponse w).1 with
      _ | e
    · simp [hv, hp, verifyCount, processCount]
    · simp [hv, verifyCount, processCount, List.prefix_cons_iff]
  · simp [hv, verifyCount, processCount]

/-- C2 at the filled form with a verifier stub that fails with an error that is neither
NotVerified nor CommunicationFailure: one `Verify`, no `Process`. -/
theorem C2_calls_prefix_witness :
    (postContact (stubsReturning (some "boom") none) filledForm 0).calls <+:
        [Call.verify (contactFormSubmission filledForm).RecaptchaResponse,
          Call.process (contactFormSubmission filledForm)] ∧
      (processCount (postContact (stubsReturning (some "boom") none) filledForm 0).calls ≠ 0 →
        allFieldsPresent (contactFormSubmission filledForm) ∧
          ((stubsReturning (some "boom") none).Verify
            (contactFormSubmission filledForm).RecaptchaResponse 0).1 = none) ∧
      verifyCount (postContact (stubsReturning (some "boom") none) filledForm 0).calls ≤ 1 ∧
      processCount (postContact (stubsReturning (some "boom") none) filledForm 0).calls ≤ 1 :=
  C2_calls_prefix (stubsReturning (some "boom") none) filledForm 0

/-- C3: with all six fields present and `Verify` returning the NotVerified error, the
handler answers 403 and `Process` is never invoked. -/
theorem C3_not_verified_403 {σ : Type} (ctx : AppContext σ) (formValue : String → String)
    (w : σ) (h : allFieldsPresent (contactFormSubmission formValue))
    (hver : (ctx.Verify (contactFormSubmission formValue).RecaptchaResponse w).1 =
      some NotVerifiedError) :
    (postContact ctx formValue w).status = 403 ∧
      processCount (postContact ctx formValue w).calls = 0 ∧
      (postContact ctx formValue w).calls =
        [Call.verify (contactFormSubmission formValue).RecaptchaResponse] := by
  have hv : validateStruct (contactFormSubmission formValue) = [] :=
    (validateStruct_eq_nil_iff _).2 h
  rw [postContact_status, postContact_calls]
  simp [hv, hver, notVerified_ne_cannotCommunicate, processCount]

/-- C3 at the filled form, with a verifier stub that reports NotVerified. -/
theorem C3_not_verified_403_witness :
    (postContact (stubsReturning (some NotVerifiedError) none) filledForm 0).status = 403 ∧
      processCount
        (postContact (stubsReturning (some NotVerifiedError) none) filledForm 0).calls = 0 ∧
      (postContact (stubsReturning (some NotVerifiedError) none) filledForm 0).calls =
        [Call.verify (contactFormSubmission filledForm).RecaptchaResponse] :=
  C3_not_verified_403 (stubsReturning (some NotVerifiedError) none) filledForm 0
    (by decide) rfl

/-- C4: with all six fields present and `Verify` returning the CommunicationFailure
error, the handler answers 500 and `Process` is never invoked. -/
theorem C4_communication_failure_500 {σ : Type} (ctx : AppContext σ)
    (formValue : String → String) (w : σ)
    (h : allFieldsPresent (contactFormSubmission formValue))
    (hver : (ctx.Verify (contactFormSubmission formValue).RecaptchaResponse w).1 =
      some CannotCommunicateRecaptchaError) :
    (postContact ctx formValue w).status = 500 ∧
      processCount (postContact ctx formValue w).calls = 0 ∧
      (postContact ctx formValue w).calls =
        [Call.verify (contactFormSubmission formValue).RecaptchaResponse] := by
  have hv : validateStruct (contactFormSubmission formValue) = [] :=
    (validateStruct_eq_nil_iff _).2 h
  rw [postContact_status, postContact_calls]
  simp [hv, hver, processCount]

/-- C4 at the filled form, with a verifier stub that reports CommunicationFailure. -/
theorem C4_communication_failure_500_witness :
    (postContact (stubsReturning (some CannotCommunicateRecaptchaError) none)
        filledForm 0).status = 500 ∧
      processCount (postContact (stubsReturning (some CannotCommunicateRecaptchaError) none)
        filledForm 0).calls = 0 ∧
      (postContact (stubsReturning (some CannotCommunicateRecaptchaError) none)
        filledForm 0).calls =
        [Call.verify (contactFormSubmission filledForm).RecaptchaResponse] :=
  C4_communication_failure_500 (stubsReturning (some CannotCommunicateRecaptchaError) none)
    filledForm 0 (by decide) rfl

/-- C5: with all six fields present and `Verify` returning no error, the handler
answers 200 when `Process` returns no error and 500 when `Process` returns an error,
the same 500 whatever the text of that error; `Process` receives the submission once,
after `Verify`. -/
theorem C5_sender_result_status {σ : Type} (ctx : AppContext σ)
    (formValue : String → String) (w : σ)
    (h : allFieldsPresent (contactFormSubmission formValue))
    (hver : (ctx.Verify (contactFormSubmission formValue).RecaptchaResponse w).1 = none) :
    ((ctx.Process (contactFormSubmission formValue)
        (ctx.Verify (contactFormSubmission formValue).RecaptchaResponse w).2).1 = none →
      (postContact ctx formValue w).status = 200) ∧
    (∀ e, (ctx.Process (contactFormSubmission formValue)
        (ctx.Verify (contactFormSubmission formValue).RecaptchaResponse w).2).1 = some e →
      (postContact ctx formValue w).status = 500) ∧
    (postContact ctx formValue w).calls =
      [Call.verify (contactFormSubmission formValue).RecaptchaResponse,
        Call.process (contactFormSubmission formValue)] := by
  have hv : validateStruct (contactFormSubmission formValue) = [] :=
    (validateStruct_eq_nil_iff _).2 h
  rw [postContact_status, postContact_calls]
  refine ⟨fun hp => ?_, fun e hp => ?_, ?_⟩
  · simp [hv, hver, hp]
  · simp [hv, hver, hp]
  · simp [hv, hver]

/-- C5 at the filled form: 200 with a sender stub that succeeds, and 500 with sender
stubs failing for each of the four reasons of the email service. -/
theorem C5_sender_result_status_witness :
    (postContact (stubsReturning none none) filledForm 0).status = 200 ∧
      (postContact (stubsReturning none (some AwsSesRejectedMessageError))
        filledForm 0).status = 500 ∧
      (postContact (stubsReturning none (some AwsSesMailFromDomainNotVerifiedError))
        filledForm 0).status = 500 ∧
      (postContact (stubsReturning none (some AwsSesConfigurationSetDoesNotExistError))
        filledForm 0).status = 500 ∧
      (postContact (stubsReturning none (some AwsSesUnknownError)) filledForm 0).status = 500 :=
  ⟨(C5_sender_result_status (stubsReturning none none) filledForm 0 (by decide) rfl).1 rfl,
    (C5_sender_result_status (stubsReturning none (some AwsSesRejectedMessageError))
      filledForm 0 (by decide) rfl).2.1 _ rfl,
    (C5_sender_result_status (stubsReturning none (some AwsSesMailFromDomainNotVerifiedError))
      filledForm 0 (by decide) rfl).2.1 _ rfl,
    (C5_sender_result_status (stubsReturning none (some AwsSesConfigurationSetDoesNotExistError))
      filledForm 0 (by decide) rfl).2.1 _ rfl,
    (C5_sender_result_status (stubsReturning none (some AwsSesUnknownError))
      filledForm 0 (by decide) rfl).2.1 _ rfl⟩

/-- C6, refuted as stated: the email field "not-an-email" is non-empty and is not an
address by the only email grammar of the repository, yet shape validation passes and,
with collaborators that succeed, the handler answers 200 and not 400. -/
theorem C6_email_not_format_checked :
    (contactFormSubmission formWithBadEmail).Email = "not-an-email" ∧
      validateEmailFormat "not-an-email" = some EmailInvalidError ∧
      validateStruct (contactFormSubmission formWithBadEmail) = [] ∧
      (postContact (stubsReturning none none) formWithBadEmail 0).status = 200 := by
  decide

/-- C6, amended: the email field is checked for presence only.  For every submission
whose email field is non-empty, well-formed or not, shape validation fails, and the
handler answers 400, exactly when one of the other five fields is empty. -/
theorem C6_email_presence_only {σ : Type} (ctx : AppContext σ)
    (formValue : String → String) (w : σ)
    (h : (contactFormSubmission formValue).Email ≠ "") :
    (validateStruct (contactFormSubmission formValue) ≠ [] ↔
        someOtherFieldEmpty (contactFormSubmission formValue)) ∧
      ((postContact ctx formValue w).status = 400 ↔
        someOtherFieldEmpty (contactFormSubmission formValue)) := by
  have hiff : validateStruct (contactFormSubmission formValue) ≠ [] ↔
      someOtherFieldEmpty (contactFormSubmission formValue) := by
    rw [Ne, validateStruct_eq_nil_iff]
    unfold allFieldsPresent someOtherFieldEmpty
    tauto
  refine ⟨hiff, ?_⟩
  rw [← hiff, postContact_status]
  by_cases hv : validateStruct (contactFormSubmission formValue) = []
  · rcases hver : (ctx.Verify (contactFormSubmission formValue).RecaptchaResponse w).1 with
      _ | e
    · rcases hpro : (ctx.Process (contactFormSubmission formValue)
        (ctx.Verify (contactFormSubmission formValue).RecaptchaResponse w).2).1 with _ | e <;>
        simp [hv, hpro]
    · by_cases h1 : e = CannotCommunicateRecaptchaError
      · simp [hv, h1]
      · by_cases h2 : e = NotVerifiedError <;>
          simp [hv, h1, h2, notVerified_ne_cannotCommunicate]
  · simp [hv]

/-- C6 amended, at the form whose email field is "not-an-email". -/
theorem C6_email_presence_only_witness :
    (contactFormSubmission formWithBadEmail).Email ≠ "" ∧
      (validateStruct (contactFormSubmission formWithBadEmail) ≠ [] ↔
        someOtherFieldEmpty (contactFormSubmission formWithBadEmail)) ∧
      ((postContact (stubsReturning none none) formWithBadEmail 0).status = 400 ↔
        someOtherFieldEmpty (contactFormSubmission formWithBadEmail)) :=
  ⟨by decide, C6_email_presence_only (stubsReturning none none) formWithBadEmail 0 (by decide)⟩

/-! ## The matcher is sound for the language of the pattern -/

/-- Soundness of `starRun`: every remainder is reached by consuming a sequence of
words, each accepted by the step. -/
theorem starRun_sound {step : List Char → List (List Char)} {P : List Char → Prop}
    (hstep : ∀ s t, t ∈ step s → ∃ u, P u ∧ s = u ++ t) :
    ∀ (fuel : Nat) (s t : List Char), t ∈ starRun step fuel s →
      ∃ L : List (List Char), (∀ x ∈ L, P x) ∧ s = L.flatten ++ t := by
  intro fuel
  induction fuel with
  | zero =>
    intro s t ht
    simp only [starRun, List.mem_singleton] at ht
    exact ⟨[], by simp, by simp [ht]⟩
  | succ n ih =>
    intro s t ht
    simp only [starRun, List.mem_cons, List.mem_flatMap] at ht
    rcases ht with rfl | ⟨s1, hs1, ht1⟩
    · exact ⟨[], by simp, by simp⟩
    · obtain ⟨u, hu, rfl⟩ := hstep s s1 hs1
      obtain ⟨L, hL, rfl⟩ := ih s1 t ht1
      refine ⟨u :: L, ?_, by simp⟩
      intro x hx
      rcases List.mem_cons.1 hx with rfl | hx
      · exact hu
      · exact hL x hx

/-- Soundness of `repRun`: every remainder is reached by consuming between `lo` and
`hi` words, each accepted by the step. -/
theorem repRun_sound {step : List Char → List (List Char)} {P : List Char → Prop}
    (hstep : ∀ s t, t ∈ step s → ∃ u, P u ∧ s = u ++ t) :
    ∀ (hi lo : Nat) (s t : List Char), t ∈ repRun step lo hi s →
      ∃ L : List (List Char), lo ≤ L.length ∧ L.length ≤ hi ∧ (∀ x ∈ L, P x) ∧
        s = L.flatten ++ t := by
  intro hi
  induction hi with
  | zero =>
    intro lo s t ht
    by_cases hlo : lo = 0
    · simp only [repRun, hlo, if_true, List.mem_singleton] at ht
      exact ⟨[], by simp [hlo], by simp, by simp, by simp [ht]⟩
    · simp [repRun, hlo] at ht
  | succ n ih =>
    intro lo s t ht
    simp only [repRun, List.mem_append, List.mem_flatMap] at ht
    rcases ht with ht | ⟨s1, hs1, ht1⟩
    · by_cases hlo : lo = 0
      · simp only [hlo, if_true, List.mem_singleton] at ht
        exact ⟨[], by simp [hlo], by simp, by simp, by simp [ht]⟩
      · simp [hlo] at ht
    · obtain ⟨u, hu, rfl⟩ := hstep s s1 hs1
      obtain ⟨L, hlo, hhi, hL, rfl⟩ := ih (lo - 1) s1 t ht1
      refine ⟨u :: L, by simp; omega, by simp; omega, ?_, by simp⟩
      intro x hx
      rcases List.mem_cons.1 hx with rfl | hx
      · exact hu
      · exact hL x hx

/-- Soundness of `Regex.run`: the text consumed before a remainder is a word of the
language of the pattern. -/
theorem Regex.run_sound (r : Regex) :
    ∀ (s t : List Char), t ∈ r.run s → ∃ u, r.Lang u ∧ s = u ++ t := by
  induction r with
  | cls ranges =>
    intro s t ht
    cases s with
    | nil => simp [Regex.run] at ht
    | cons c s1 =>
      by_cases hc : inClass ranges c = true
      · simp only [Regex.run, hc, if_true, List.mem_singleton] at ht
        exact ⟨[c], ⟨c, hc, rfl⟩, by simp [ht]⟩
      · simp [Regex.run, hc] at ht
  | seq a b iha ihb =>
    intro s t ht
    simp only [Regex.run, List.mem_flatMap] at ht
    obtain ⟨s1, hs1, ht1⟩ := ht
    obtain ⟨u, hu, rfl⟩ := iha s s1 hs1
    obtain ⟨v, hv, rfl⟩ := ihb s1 t ht1
    exact ⟨u ++ v, ⟨u, v, hu, hv, rfl⟩, by simp⟩
  | opt a iha =>
    intro s t ht
    simp only [Regex.run, List.mem_cons] at ht
    rcases ht with rfl | ht
    · exact ⟨[], Or.inl rfl, by simp⟩
    · obtain ⟨u, hu, rfl⟩ := iha s t ht
      exact ⟨u, Or.inr hu, rfl⟩
  | plus a iha =>
    intro s t ht
    simp only [Regex.run, List.mem_flatMap] at ht
    obtain ⟨s1, hs1, ht1⟩ := ht
    obtain ⟨u, hu, rfl⟩ := iha s s1 hs1
    obtain ⟨L, hL, rfl⟩ := starRun_sound iha _ s1 t ht1
    exact ⟨u ++ L.flatten, ⟨u, L, hu, hL, rfl⟩, by simp⟩
  | star a iha =>
    intro s t ht
    simp only [Regex.run] at ht
    obtain ⟨L, hL, rfl⟩ := starRun_sound iha _ s t ht
    exact ⟨L.flatten, ⟨L, hL, rfl⟩, rfl⟩
  | rep a lo hi iha =>
    intro s t ht
    simp only [Regex.run] at ht
    obtain ⟨L, hlo, hhi, hL, rfl⟩ := repRun_sound iha hi lo s t ht
    exact ⟨L.flatten, ⟨L, hlo, hhi, hL, rfl⟩, rfl⟩

/-- Soundness of `MatchString`: a text that matches is a word of the language. -/
theorem Regex.MatchString_sound (r : Regex) (s : String) (h : r.MatchString s = true) :
    r.Lang s.toList := by
  simp only [Regex.MatchString, List.any_eq_true] at h
  obtain ⟨t, ht, hnil⟩ := h
  obtain ⟨u, hu, hs⟩ := r.run_sound s.toList t ht
  have : t = [] := by simpa using hnil
  subst this
  simp only [List.append_nil] at hs
  rw [hs]; exact hu

/-! ## The matcher is complete for the language of the pattern -/

/-- Completeness of `starRun`: consuming a sequence of words, each accepted by the
step, is found when the fuel covers the number of words. -/
theorem starRun_complete {step : List Char → List (List Char)} (L : List (List Char))
    (hL : ∀ x ∈ L, ∀ t, t ∈ step (x ++ t)) :
    ∀ (fuel : Nat), L.length ≤ fuel → ∀ t, t ∈ starRun step fuel (L.flatten ++ t) := by
  induction L with
  | nil =>
    intro fuel _ t
    cases fuel <;> simp [starRun]
  | cons x L ih =>
    intro fuel hfuel t
    cases fuel with
    | zero => simp at hfuel
    | succ n =>
      simp only [starRun, List.mem_cons, List.mem_flatMap]
      right
      refine ⟨L.flatten ++ t, ?_, ?_⟩
      · simpa using hL x (by simp) (L.flatten ++ t)
      · exact ih (fun y hy => hL y (List.mem_cons_of_mem _ hy)) n
          (by simp at hfuel; omega) t

/-- Completeness of `repRun`: consuming between `lo` and `hi` words, each accepted by
the step, is found. -/
theorem repRun_complete {step : List Char → List (List Char)} (L : List (List Char))
    (hL : ∀ x ∈ L, ∀ t, t ∈ step (x ++ t)) :
    ∀ (lo hi : Nat), lo ≤ L.length → L.length ≤ hi →
      ∀ t, t ∈ repRun step lo hi (L.flatten ++ t) := by
  induction L with
  | nil =>
    intro lo hi hlo _ t
    have h0 : lo = 0 := by simpa using hlo
    cases hi <;> simp [repRun, h0]
  | cons x L ih =>
    intro lo hi hlo hhi t
    cases hi with
    | zero => simp at hhi
    | succ n =>
      simp only [repRun, List.mem_append, List.mem_flatMap]
      right
      refine ⟨L.flatten ++ t, ?_, ?_⟩
      · simpa using hL x (by simp) (L.flatten ++ t)
      · exact ih (fun y hy => hL y (List.mem_cons_of_mem _ hy)) (lo - 1) n
          (by simp at hlo; omega) (by simp at hhi; omega) t

/-- Dropping the empty words of a sequence does not change its concatenation. -/
theorem flatten_filter_nonempty (L : List (List Char)) :
    (L.filter fun x => !x.isEmpty).flatten = L.flatten := by
  induction L with
  | nil => rfl
  | cons x L ih =>
    cases x with
    | nil => simpa [List.filter] using ih
    | cons c x => simp [List.filter, ih]

/-- A sequence of non-empty words has at most as many words as characters. -/
theorem length_le_flatten_length (L : List (List Char)) (hL : ∀ x ∈ L, x ≠ []) :
    L.length ≤ L.flatten.length := by
  induction L with
  | nil => simp
  | cons x L ih =>
    have hx : 0 < x.length := List.length_pos.2 (hL x (by simp))
    have := ih (fun y hy => hL y (List.mem_cons_of_mem _ hy))
    simp only [List.length_cons, List.flatten_cons, List.length_append]
    omega

/-- Completeness of `starRun` with the fuel that `Regex.run` gives it: the length of a
text that the words are a part of. -/
theorem starRun_complete_length {step : List Char → List (List Char)}
    (L : List (List Char)) (hL : ∀ x ∈ L, ∀ t, t ∈ step (x ++ t)) (fuel : Nat) (t : List Char)
    (hfuel : (L.flatten ++ t).length ≤ fuel) : t ∈ starRun step fuel (L.flatten ++ t) := by
  have hmem : ∀ x ∈ (L.filter fun x => !x.isEmpty), x ∈ L ∧ x ≠ [] := by
    intro x hx
    have h := List.mem_filter.1 hx
    refine ⟨h.1, ?_⟩
    rintro rfl
    simp at h
  have hlen := length_le_flatten_length _ (fun x hx => (hmem x hx).2)
  rw [flatten_filter_nonempty] at hlen
  have hgoal := starRun_complete (L.filter fun x => !x.isEmpty)
    (fun x hx => hL x (hmem x hx).1) fuel
    (by simp only [List.length_append] at hfuel; omega) t
  rwa [flatten_filter_nonempty] at hgoal

/-- Completeness of `Regex.run`: after a word of the language, what follows it is among
the remainders. -/
theorem Regex.run_complete (r : Regex) :
    ∀ (u : List Char), r.Lang u → ∀ t, t ∈ r.run (u ++ t) := by
  induction r with
  | cls ranges =>
    rintro u ⟨c, hc, rfl⟩ t
    simp [Regex.run, hc]
  | seq a b iha ihb =>
    rintro w ⟨u, v, hu, hv, rfl⟩ t
    simp only [Regex.run, List.mem_flatMap]
    exact ⟨v ++ t, by simpa using iha u hu (v ++ t), ihb v hv t⟩
  | opt a iha =>
    rintro u (rfl | hu) t
    · simp [Regex.run]
    · simp only [Regex.run, List.mem_cons]
      exact Or.inr (iha u hu t)
  | plus a iha =>
    rintro w ⟨u, L, hu, hL, rfl⟩ t
    simp only [Regex.run, List.mem_flatMap]
    refine ⟨L.flatten ++ t, by simpa using iha u hu (L.flatten ++ t), ?_⟩
    exact starRun_complete_length L (fun x hx => iha x (hL x hx)) _ t
      (by simp only [List.length_append]; omega)
  | star a iha =>
    rintro w ⟨L, hL, rfl⟩ t
    simp only [Regex.run]
    exact starRun_complete_length L (fun x hx => iha x (hL x hx)) _ t (Nat.le_refl _)
  | rep a lo hi iha =>
    rintro w ⟨L, hlo, hhi, hL, rfl⟩ t
    simp only [Regex.run]
    exact repRun_complete L (fun x hx => iha x (hL x hx)) lo hi hlo hhi t

/-- The method `MatchString` decides membership in the language of the pattern. -/
theorem Regex.MatchString_iff (r : Regex) (s : String) :
    r.MatchString s = true ↔ r.Lang s.toList := by
  constructor
  · exact r.MatchString_sound s
  · intro h
    have hmem := r.run_complete s.toList h []
    simp only [List.append_nil] at hmem
    simp only [Regex.MatchString, List.any_eq_true]
    exact ⟨[], hmem, rfl⟩

/-! ## The shape of the addresses accepted by the pattern -/

/-- A character of a class that does not contain `x` is not `x`. -/
theorem ne_of_inClass {ranges : List (Char × Char)} {c x : Char}
    (hc : inClass ranges c = true) (hx : inClass ranges x = false) : c ≠ x := by
  rintro rfl
  rw [hc] at hx
  exact Bool.noConfusion hx

/-- The class of a literal contains that literal only. -/
theorem eq_of_inClass_lit {a c : Char} (h : inClass [(a, a)] c = true) : c = a := by
  simp only [inClass, List.any_cons, List.any_nil, Bool.or_false, Bool.and_eq_true,
    decide_eq_true_eq] at h
  exact le_antisymm h.2 h.1

/-- Letters and digits belong to the class that adds the hyphen. -/
theorem inClass_alnumHyphen_of_alnum {c : Char} (h : inClass alnum c = true) :
    inClass alnumHyphen c = true := by
  unfold inClass alnumHyphen at *
  rw [List.any_append, h, Bool.true_or]

/-- A word of a domain label is non-empty and made of letters, digits and hyphens. -/
theorem domainLabel_word {w : List Char} (h : domainLabel.Lang w) :
    w ≠ [] ∧ ∀ c ∈ w, inClass alnumHyphen c = true := by
  simp only [domainLabel, Regex.Lang] at h
  obtain ⟨u, v, ⟨c, hc, rfl⟩, hv, rfl⟩ := h
  refine ⟨by simp, ?_⟩
  intro x hx
  rcases List.mem_append.1 hx with hx | hx
  · rw [List.mem_singleton.1 hx]; exact inClass_alnumHyphen_of_alnum hc
  · rcases hv with rfl | ⟨v1, v2, ⟨L, -, -, hL, rfl⟩, ⟨d, hd, rfl⟩, rfl⟩
    · simp at hx
    · rcases List.mem_append.1 hx with hx | hx
      · obtain ⟨y, hy, hxy⟩ := List.mem_flatten.1 hx
        obtain ⟨e, he, rfl⟩ := hL y hy
        rw [List.mem_singleton.1 hxy]; exact he
      · rw [List.mem_singleton.1 hx]; exact inClass_alnumHyphen_of_alnum hd

/-- A text with two adjacent dots behind one more character still has them. -/
theorem adjacentDots_cons {l : List Char} (a : Char) (h : adjacentDots l = true) :
    adjacentDots (a :: l) = true := by
  cases l with
  | nil => simp [adjacentDots] at h
  | cons b t => simp [adjacentDots, h]

/-- The scan finds two adjacent dots wherever they occur. -/
theorem adjacentDots_of_hasConsecutiveDots {s : List Char} (h : hasConsecutiveDots s) :
    adjacentDots s = true := by
  obtain ⟨u, v, rfl⟩ := h
  induction u with
  | nil => simp [adjacentDots]
  | cons a u ih => exact adjacentDots_cons a ih

/-- A text without any dot has no two adjacent dots. -/
theorem adjacentDots_of_dotFree : ∀ (l : List Char), (∀ c ∈ l, c ≠ '.') →
    adjacentDots l = false
  | [], _ => rfl
  | [_], _ => rfl
  | a :: b :: t, h => by
    have ha : a ≠ '.' := h a (by simp)
    have ih := adjacentDots_of_dotFree (b :: t) (fun c hc => h c (List.mem_cons_of_mem _ hc))
    simp [adjacentDots, ha, ih]

/-- A non-empty dot-free text in front of a dot does not change the scan. -/
theorem adjacentDots_label_append_dot : ∀ (l : List Char), l ≠ [] → (∀ c ∈ l, c ≠ '.') →
    ∀ w, adjacentDots (l ++ '.' :: w) = adjacentDots ('.' :: w)
  | [], h, _, _ => absurd rfl h
  | [a], _, h, w => by
    have ha : a ≠ '.' := h a (by simp)
    simp [adjacentDots, ha]
  | a :: b :: t, _, h, w => by
    have ha : a ≠ '.' := h a (by simp)
    have ih := adjacentDots_label_append_dot (b :: t) (by simp)
      (fun c hc => h c (List.mem_cons_of_mem _ hc)) w
    simp only [List.cons_append] at ih ⊢
    simp [adjacentDots, ha, ih]

/-- A dot in front of a text that starts with another character does not change the
scan. -/
theorem adjacentDots_dot_label (l w : List Char) (hl : l ≠ []) (h : ∀ c ∈ l, c ≠ '.') :
    adjacentDots ('.' :: (l ++ w)) = adjacentDots (l ++ w) := by
  cases l with
  | nil => exact absurd rfl hl
  | cons a t =>
    have ha : a ≠ '.' := h a (by simp)
    simp [adjacentDots, ha]

/-- A label followed by groups, each a dot and a label, has no two adjacent dots. -/
theorem adjacentDots_label_groups (L : List (List Char))
    (hL : ∀ x ∈ L, ∃ l, x = '.' :: l ∧ l ≠ [] ∧ ∀ c ∈ l, c ≠ '.') :
    ∀ (l0 : List Char), l0 ≠ [] → (∀ c ∈ l0, c ≠ '.') →
      adjacentDots (l0 ++ L.flatten) = false := by
  induction L with
  | nil =>
    intro l0 _ h0
    simpa using adjacentDots_of_dotFree l0 h0
  | cons x L ih =>
    intro l0 hne h0
    obtain ⟨l, rfl, hlne, hl⟩ := hL x (by simp)
    have hrest := ih (fun y hy => hL y (List.mem_cons_of_mem _ hy)) l hlne hl
    simp only [List.flatten_cons, List.cons_append]
    rw [adjacentDots_label_append_dot l0 hne h0, adjacentDots_dot_label l _ hlne hl]
    exact hrest

/-- A word of the domain pattern has no two adjacent dots and no `@`. -/
theorem domainPattern_word {w : List Char} (h : domainPattern.Lang w) :
    adjacentDots w = false ∧ '@' ∉ w := by
  simp only [domainPattern, Regex.Lang] at h
  obtain ⟨l0, rest, hl0, ⟨L, hL, rfl⟩, rfl⟩ := h
  have hdot : inClass alnumHyphen '.' = false := by decide
  have hat : inClass alnumHyphen '@' = false := by decide
  have hgroup : ∀ x ∈ L, ∃ l, x = '.' :: l ∧ domainLabel.Lang l := by
    intro x hx
    obtain ⟨u, v, ⟨c, hc, rfl⟩, hv, rfl⟩ := hL x hx
    exact ⟨v, by rw [eq_of_inClass_lit hc]; rfl, hv⟩
  obtain ⟨hne0, hcls0⟩ := domainLabel_word hl0
  constructor
  · apply adjacentDots_label_groups L _ l0 hne0 (fun c hc => ne_of_inClass (hcls0 c hc) hdot)
    intro x hx
    obtain ⟨l, rfl, hl⟩ := hgroup x hx
    obtain ⟨hne, hcls⟩ := domainLabel_word hl
    exact ⟨l, rfl, hne, fun c hc => ne_of_inClass (hcls c hc) hdot⟩
  · intro hmem
    rcases List.mem_append.1 hmem with hmem | hmem
    · exact ne_of_inClass (hcls0 _ hmem) hat rfl
    · obtain ⟨x, hx, hxm⟩ := List.mem_flatten.1 hmem
      obtain ⟨l, rfl, hl⟩ := hgroup x hx
      rcases List.mem_cons.1 hxm with hxm | hxm
      · exact absurd hxm (by decide)
      · exact ne_of_inClass ((domainLabel_word hl).2 _ hxm) hat rfl

/-- A word of the whole pattern is a local part without `@`, the character `@`, and a
word of the domain pattern. -/
theorem emailFormatRegex_word {w : List Char} (h : emailFormatRegex.Lang w) :
    ∃ loc dom, w = loc ++ '@' :: dom ∧ '@' ∉ loc ∧ domainPattern.Lang dom := by
  simp only [emailFormatRegex, lit, Regex.Lang] at h
  obtain ⟨loc, rest, ⟨u, L, ⟨c, hc, rfl⟩, hL, rfl⟩, ⟨a, dom, ⟨d, hd, rfl⟩, hdom, rfl⟩, rfl⟩ := h
  have hat : inClass localClass '@' = false := by decide
  refine ⟨[c] ++ L.flatten, dom, ?_, ?_, ?_⟩
  · rw [eq_of_inClass_lit hd]; simp
  · intro hmem
    rcases List.mem_append.1 hmem with hmem | hmem
    · rw [List.mem_singleton] at hmem
      exact ne_of_inClass hc hat hmem.symm
    · obtain ⟨x, hx, hxm⟩ := List.mem_flatten.1 hmem
      obtain ⟨e, he, rfl⟩ := hL x hx
      rw [List.mem_singleton] at hxm
      exact ne_of_inClass he hat hxm.symm
  · simpa [domainPattern, Regex.Lang] using hdom

/-- A text splits in at most one way around an `@` that neither side contains. -/
theorem split_at_unique {l d loc dom : List Char} (h : l ++ '@' :: d = loc ++ '@' :: dom)
    (hloc : '@' ∉ loc) (hdom : '@' ∉ dom) : d = dom := by
  rcases List.append_eq_append_iff.1 h with ⟨a, rfl, ha⟩ | ⟨c, rfl, hc⟩
  · cases a with
    | nil => simpa using ha
    | cons x a =>
      simp only [List.cons_append, List.cons.injEq] at ha
      exact absurd (by simp [← ha.1]) hloc
  · cases c with
    | nil => simpa using hc.symm
    | cons x c =>
      simp only [List.cons_append, List.cons.injEq] at hc
      exact absurd (by rw [hc.2]; simp) hdom

/-- An address that the pattern matches has no two adjacent dots after an `@`. -/
theorem no_adjacentDots_after_at {s : String} (h : emailFormatRegex.MatchString s = true)
    {l d : List Char} (hs : s.toList = l ++ '@' :: d) : adjacentDots d = false := by
  obtain ⟨loc, dom, hw, hloc, hdom⟩ :=
    emailFormatRegex_word (emailFormatRegex.MatchString_sound s h)
  obtain ⟨hadj, hat⟩ := domainPattern_word hdom
  rw [hs] at hw
  rw [split_at_unique hw hloc hat]
  exact hadj

/-! ## Configuration validation -/

/-- The byte length of a Go string is zero exactly for the empty string. -/
theorem utf8ByteSize_le_zero_iff (s : String) : s.utf8ByteSize ≤ 0 ↔ s = "" := by
  constructor
  · intro h
    rcases s with ⟨cs⟩
    cases cs with
    | nil => rfl
    | cons c cs =>
      have hpos := Char.utf8Size_pos c
      simp only [String.utf8ByteSize, String.utf8ByteSize.go] at h
      omega
  · rintro rfl
    exact Nat.le_refl 0

/-- The only error that `validateEmailFormat` returns is `EmailInvalidError`, and it
returns it exactly for the malformed addresses. -/
theorem validateEmailFormat_eq (s : String) :
    (malformedEmail s → validateEmailFormat s = some EmailInvalidError) ∧
      (¬ malformedEmail s → validateEmailFormat s = none) := by
  unfold malformedEmail validateEmailFormat
  cases emailFormatRegex.MatchString s <;> simp

/-- An address is malformed exactly when it is not a word of the language of the
pattern. -/
theorem malformedEmail_iff (s : String) :
    malformedEmail s ↔ ¬ emailFormatRegex.Lang s.toList := by
  unfold malformedEmail
  rw [← Regex.MatchString_iff]
  cases emailFormatRegex.MatchString s <;> simp

/-- The empty string is a malformed address. -/
theorem malformedEmail_empty : malformedEmail "" := by decide

/-- A malformed sender makes `EmailConfig.Validate` fail with the email error. -/
theorem validate_of_malformed_sender (emailConfig : EmailConfig)
    (h : malformedEmail emailConfig.Sender) :
    emailConfig.Validate = some EmailInvalidError := by
  simp [EmailConfig.Validate, (validateEmailFormat_eq _).1 h]

/-- A malformed recipient makes `EmailConfig.Validate` fail with the email error. -/
theorem validate_of_malformed_recipient (emailConfig : EmailConfig)
    (h : malformedEmail emailConfig.Recipient) :
    emailConfig.Validate = some EmailInvalidError := by
  by_cases hs : malformedEmail emailConfig.Sender
  · exact validate_of_malformed_sender emailConfig hs
  · simp [EmailConfig.Validate, (validateEmailFormat_eq _).2 hs,
      (validateEmailFormat_eq _).1 h]

/-- C7: an application configuration whose port is 0 fails with the port error
whatever its email configuration holds, even a nil one or one in which the sender, the
recipient, the subject and the region are all invalid: the email checks are not
evaluated. -/
theorem C7_zero_port_first (appConfig : AppConfig) (h : appConfig.HttpPort = 0) :
    appConfig.Validate = Completion.returned (some HttpPortInvalidError) := by
  simp [AppConfig.Validate, h]

/-- C7 at a configuration with port 0 whose email configuration fails every email
check by itself and would fail with another error. -/
theorem C7_zero_port_first_witness :
    badEmailConfig.Validate = some EmailInvalidError ∧
      EmailInvalidError ≠ HttpPortInvalidError ∧
      AppConfig.Validate
          { HttpPort := 0, FrontendDir := "", EmailConfig := some badEmailConfig,
            RecaptchaSecret := "" } =
        Completion.returned (some HttpPortInvalidError) :=
  ⟨by decide, by decide, C7_zero_port_first _ rfl⟩

/-- C8, refuted as stated: a configuration with the negative port -1 and a valid,
non-nil email configuration passes `AppConfig.Validate`. -/
theorem C8_negative_port_accepted :
    AppConfig.Validate
        { HttpPort := -1, FrontendDir := "", EmailConfig := some goodEmailConfig,
          RecaptchaSecret := "" } = Completion.returned none ∧
      ¬ (0 < (AppConfig.HttpPort
        { HttpPort := -1, FrontendDir := "", EmailConfig := some goodEmailConfig,
          RecaptchaSecret := "" })) := by
  decide

/-- C8, amended: for a configuration with a non-nil email configuration,
`AppConfig.Validate` returns no error exactly when the port is not 0 and the email
configuration validates; so a successful validation gives a nonzero port, and the sign
of the port plays no part. -/
theorem C8_nonzero_port (appConfig : AppConfig) (emailConfig : EmailConfig)
    (h : appConfig.EmailConfig = some emailConfig) :
    appConfig.Validate = Completion.returned none ↔
      appConfig.HttpPort ≠ 0 ∧ emailConfig.Validate = none := by
  by_cases hp : appConfig.HttpPort = 0
  · simp [AppConfig.Validate, hp]
  · simp [AppConfig.Validate, hp, h]

/-- C8 amended, at port 8080 and at port -1 with a valid email configuration. -/
theorem C8_nonzero_port_witness :
    (AppConfig.Validate
        { HttpPort := 8080, FrontendDir := "", EmailConfig := some goodEmailConfig,
          RecaptchaSecret := "" } = Completion.returned none ↔
      ((8080 : Int) ≠ 0 ∧ goodEmailConfig.Validate = none)) ∧
    (AppConfig.Validate
        { HttpPort := -1, FrontendDir := "", EmailConfig := some goodEmailConfig,
          RecaptchaSecret := "" } = Completion.returned none ↔
      ((-1 : Int) ≠ 0 ∧ goodEmailConfig.Validate = none)) :=
  ⟨C8_nonzero_port _ goodEmailConfig rfl, C8_nonzero_port _ goodEmailConfig rfl⟩

/-- C9: `EmailConfig.Validate` returns the error of the first failing check, in the
order sender, recipient, subject, region, and nothing else: the email error when the
sender is empty or malformed, or when the sender is well-formed and the recipient is
empty or malformed; otherwise the subject error when the subject is empty; otherwise
the region error when the region is empty; otherwise no error. -/
theorem C9_first_failing_check (emailConfig : EmailConfig) :
    (emailConfig.Sender = "" ∨ malformedEmail emailConfig.Sender →
        emailConfig.Validate = some EmailInvalidError) ∧
      (¬ malformedEmail emailConfig.Sender →
        (emailConfig.Recipient = "" ∨ malformedEmail emailConfig.Recipient) →
        emailConfig.Validate = some EmailInvalidError) ∧
      (¬ malformedEmail emailConfig.Sender → ¬ malformedEmail emailConfig.Recipient →
        emailConfig.Subject = "" →
        emailConfig.Validate = some EmailSubjectInvalidError) ∧
      (¬ malformedEmail emailConfig.Sender → ¬ malformedEmail emailConfig.Recipient →
        emailConfig.Subject ≠ "" → emailConfig.AwsSesRegion = "" →
        emailConfig.Validate = some AwsSesInvalidRegionError) ∧
      (¬ malformedEmail emailConfig.Sender → ¬ malformedEmail emailConfig.Recipient →
        emailConfig.Subject ≠ "" → emailConfig.AwsSesRegion ≠ "" →
        emailConfig.Validate = none) := by
  have hmal : ∀ s : String, s = "" ∨ malformedEmail s → malformedEmail s := by
    rintro s (rfl | h)
    · exact malformedEmail_empty
    · exact h
  refine ⟨fun h => ?_, fun hs h => ?_, fun hs hr hsub => ?_, fun hs hr hsub hreg => ?_,
    fun hs hr hsub hreg => ?_⟩
  · simp [EmailConfig.Validate, (validateEmailFormat_eq _).1 (hmal _ h)]
  · simp [EmailConfig.Validate, (validateEmailFormat_eq _).2 hs,
      (validateEmailFormat_eq _).1 (hmal _ h)]
  · simp [EmailConfig.Validate, (validateEmailFormat_eq _).2 hs,
      (validateEmailFormat_eq _).2 hr, (utf8ByteSize_le_zero_iff _).2 hsub]
  · have h1 : ¬ emailConfig.Subject.utf8ByteSize ≤ 0 :=
      fun hle => hsub ((utf8ByteSize_le_zero_iff _).1 hle)
    simp only [EmailConfig.Validate, (validateEmailFormat_eq _).2 hs,
      (validateEmailFormat_eq _).2 hr, if_neg h1, if_pos ((utf8ByteSize_le_zero_iff _).2 hreg)]
  · have h1 : ¬ emailConfig.Subject.utf8ByteSize ≤ 0 :=
      fun hle => hsub ((utf8ByteSize_le_zero_iff _).1 hle)
    have h2 : ¬ emailConfig.AwsSesRegion.utf8ByteSize ≤ 0 :=
      fun hle => hreg ((utf8ByteSize_le_zero_iff _).1 hle)
    simp only [EmailConfig.Validate, (validateEmailFormat_eq _).2 hs,
      (validateEmailFormat_eq _).2 hr, if_neg h1, if_neg h2]

/-- C9 at five configurations, one for each outcome: an empty sender, a malformed
recipient, an empty subject with an empty region, an empty region, and no failure. -/
theorem C9_first_failing_check_witness :
    badEmailConfig.Validate = some EmailInvalidError ∧
      EmailConfig.Validate { goodEmailConfig with Recipient := "nobody" } =
        some EmailInvalidError ∧
      EmailConfig.Validate { goodEmailConfig with Subject := "", AwsSesRegion := "" } =
        some EmailSubjectInvalidError ∧
      EmailConfig.Validate { goodEmailConfig with AwsSesRegion := "" } =
        some AwsSesInvalidRegionError ∧
      goodEmailConfig.Validate = none :=
  ⟨(C9_first_failing_check badEmailConfig).1 (Or.inl rfl),
    (C9_first_failing_check { goodEmailConfig with Recipient := "nobody" }).2.1
      (by decide) (Or.inr (by decide)),
    (C9_first_failing_check { goodEmailConfig with Subject := "", AwsSesRegion := "" }).2.2.1
      (by decide) (by decide) rfl,
    (C9_first_failing_check { goodEmailConfig with AwsSesRegion := "" }).2.2.2.1
      (by decide) (by decide) (by decide) rfl,
    (C9_first_failing_check goodEmailConfig).2.2.2.2
      (by decide) (by decide) (by decide) (by decide)⟩

/-- C10, refuted as stated: "a..b@example.com" has two adjacent dots, in its local
part, and `validateEmailFormat` accepts it, as does `EmailConfig.Validate` for a
configuration with that sender. -/
theorem C10_local_part_dots_accepted :
    hasConsecutiveDots "a..b@example.com".toList ∧
      validateEmailFormat "a..b@example.com" = none ∧
      EmailConfig.Validate { goodEmailConfig with Sender := "a..b@example.com" } = none := by
  decide

/-- C10, amended: the grammar rejects two adjacent dots in the domain.  For every
string in which two adjacent `.` occur somewhere after an `@`, `validateEmailFormat`
returns the email error, and `EmailConfig.Validate` fails with the email error when
such a string is the sender or the recipient. -/
theorem C10_domain_dots_rejected (s : String) (l d : List Char)
    (hs : s.toList = l ++ '@' :: d) (hd : hasConsecutiveDots d) :
    validateEmailFormat s = some EmailInvalidError ∧
      ∀ emailConfig : EmailConfig, emailConfig.Sender = s ∨ emailConfig.Recipient = s →
        emailConfig.Validate = some EmailInvalidError := by
  have hmal : malformedEmail s := by
    unfold malformedEmail
    cases hm : emailFormatRegex.MatchString s with
    | false => rfl
    | true =>
      have h1 := no_adjacentDots_after_at hm hs
      rw [adjacentDots_of_hasConsecutiveDots hd] at h1
      exact Bool.noConfusion h1
  refine ⟨(validateEmailFormat_eq s).1 hmal, ?_⟩
  rintro emailConfig (rfl | rfl)
  · exact validate_of_malformed_sender emailConfig hmal
  · exact validate_of_malformed_recipient emailConfig hmal

/-- C10 amended, at "a@example..com" as the recipient of a configuration. -/
theorem C10_domain_dots_rejected_witness :
    validateEmailFormat "a@example..com" = some EmailInvalidError ∧
      ∀ emailConfig : EmailConfig,
        emailConfig.Sender = "a@example..com" ∨ emailConfig.Recipient = "a@example..com" →
        emailConfig.Validate = some EmailInvalidError :=
  C10_domain_dots_rejected "a@example..com" ['a'] "example..com".toList rfl (by decide)

/-! ## The notification sender -/

/-- `Sprintf` writes a character that is not a percent sign as it is. -/
theorem sprintfChars_cons (c : Char) (hc : c ≠ '%') (rest : List Char) (args : List String) :
    sprintfChars (c :: rest) args = (sprintfChars rest args).map fun out => c :: out := by
  cases rest <;> cases args <;> simp [sprintfChars, hc]

/-- `Sprintf` writes the next operand as it is at a verb `%s`. -/
theorem sprintfChars_verb (rest : List Char) (a : String) (args : List String) :
    sprintfChars ('%' :: 's' :: rest) (a :: args) =
      (sprintfChars rest args).map fun out => a.toList ++ out := by
  simp [sprintfChars]

/-- The characters of the template. -/
theorem emailTemplate_toList : emailTemplate.toList =
    ['\n', 'N', 'a', 'm', 'e', ':', ' ', '%', 's',
     '\n', 'E', 'm', 'a', 'i', 'l', ':', ' ', '%', 's',
     '\n', 'C', 'o', 'm', 'p', 'a', 'n', 'y', ':', ' ', '%', 's',
     '\n', 'C', 'o', 'n', 't', 'a', 'c', 't', ' ', 'N', 'u', 'm', 'b', 'e', 'r', ':', ' ',
     '%', 's',
     '\n', 'M', 'e', 's', 's', 'a', 'g', 'e', ':', ' ', '%', 's', '\n'] := by
  decide

/-- The body of the email, written out. -/
theorem contactFormToEmailBody_eq (contactForm : ContactForm) :
    contactFormToEmailBody contactForm =
      "\n" ++ "Name: " ++ contactForm.Name ++ "\n" ++ "Email: " ++ contactForm.Email ++ "\n" ++
        "Company: " ++ contactForm.Company ++ "\n" ++
        "Contact Number: " ++ contactForm.Number ++ "\n" ++
        "Message: " ++ contactForm.Message ++ "\n" := by
  unfold contactFormToEmailBody Sprintf
  rw [emailTemplate_toList]
  simp only [sprintfChars, Option.map_some', String.toList]
  apply String.ext
  have h0 : "\n".data = ['\n'] := rfl
  have h1 : "Name: ".data = ['N', 'a', 'm', 'e', ':', ' '] := rfl
  have h2 : "Email: ".data = ['E', 'm', 'a', 'i', 'l', ':', ' '] := rfl
  have h3 : "Company: ".data = ['C', 'o', 'm', 'p', 'a', 'n', 'y', ':', ' '] := rfl
  have h4 : "Contact Number: ".data =
      ['C', 'o', 'n', 't', 'a', 'c', 't', ' ', 'N', 'u', 'm', 'b', 'e', 'r', ':', ' '] := rfl
  have h5 : "Message: ".data = ['M', 'e', 's', 's', 'a', 'g', 'e', ':', ' '] := rfl
  simp only [String.data_append, h0, h1, h2, h3, h4, h5, List.append_assoc, List.cons_append,
    List.nil_append]

/-- The error returned by `Process`, by the result of `SendEmail`. -/
theorem Process_err {σ : Type} (codes : SesErrCodes) (service : ContactFormEmailService σ)
    (contactForm : ContactForm) (w : σ) :
    (service.Process codes contactForm w).err =
      match sendEmailResult service contactForm w with
      | SendEmailResult.failed (SendEmailError.awserr code _) =>
        if code = codes.ErrCodeMessageRejected then some AwsSesRejectedMessageError
        else if code = codes.ErrCodeMailFromDomainNotVerifiedException then
          some AwsSesMailFromDomainNotVerifiedError
        else if code = codes.ErrCodeConfigurationSetDoesNotExistException then
          some AwsSesConfigurationSetDoesNotExistError
        else some AwsSesUnknownError
      | SendEmailResult.failed (SendEmailError.other _) => some AwsSesUnknownError
      | SendEmailResult.ok _ => none := by
  unfold ContactFormEmailService.Process sendEmailResult
  rcases hres : service.SendEmail (sendEmailInput service.EmailConfig contactForm) w with
    ⟨result | err, w1⟩
  · rcases hid : result.MessageId with _ | id <;> simp [hid]
  · cases err with
    | awserr code text =>
      simp only []
      split_ifs <;> rfl
    | other text => simp

/-- C11: the error that `Process` returns for an error of `SendEmail` is one of four,
chosen by the provider code: the rejected-message error for the code MessageRejected,
the domain-not-verified error for MailFromDomainNotVerifiedException, the
configuration-set error for ConfigurationSetDoesNotExistException, the unknown error
for any other provider code and for an error that is not a provider error.  `Process`
returns no error exactly when `SendEmail` returned none, with or without a message
id. -/
theorem C11_process_error_mapping {σ : Type} (codes : SesErrCodes) (hcodes : codes.distinct)
    (service : ContactFormEmailService σ) (contactForm : ContactForm) (w : σ) :
    (∀ code text,
        sendEmailResult service contactForm w =
          SendEmailResult.failed (SendEmailError.awserr code text) →
        (code = codes.ErrCodeMessageRejected →
          (service.Process codes contactForm w).err = some AwsSesRejectedMessageError) ∧
        (code = codes.ErrCodeMailFromDomainNotVerifiedException →
          (service.Process codes contactForm w).err =
            some AwsSesMailFromDomainNotVerifiedError) ∧
        (code = codes.ErrCodeConfigurationSetDoesNotExistException →
          (service.Process codes contactForm w).err =
            some AwsSesConfigurationSetDoesNotExistError) ∧
        (code ≠ codes.ErrCodeMessageRejected →
          code ≠ codes.ErrCodeMailFromDomainNotVerifiedException →
          code ≠ codes.ErrCodeConfigurationSetDoesNotExistException →
          (service.Process codes contactForm w).err = some AwsSesUnknownError)) ∧
      (∀ text,
        sendEmailResult service contactForm w =
          SendEmailResult.failed (SendEmailError.other text) →
        (service.Process codes contactForm w).err = some AwsSesUnknownError) ∧
      (∀ err, sendEmailResult service contactForm w = SendEmailResult.failed err →
        ∃ m ∈ senderErrors, (service.Process codes contactForm w).err = some m) ∧
      ((service.Process codes contactForm w).err = none ↔
        ∃ result, sendEmailResult service contactForm w = SendEmailResult.ok result) := by
  obtain ⟨h12, h13, h23⟩ := hcodes
  rw [Process_err]
  refine ⟨fun code text hres => ⟨fun h => ?_, fun h => ?_, fun h => ?_, fun h1 h2 h3 => ?_⟩,
    fun text hres => ?_, fun err hres => ?_, ?_⟩
  · simp [hres, h]
  · subst h
    simp [hres, Ne.symm h12]
  · subst h
    simp [hres, Ne.symm h13, Ne.symm h23]
  · simp [hres, h1, h2, h3]
  · simp [hres]
  · rw [hres]
    cases err with
    | awserr code text =>
      simp only []
      split_ifs <;> simp [senderErrors]
    | other text => exact ⟨_, by simp [senderErrors], rfl⟩
  · rcases hres : sendEmailResult service contactForm w with result | err
    · simp
    · cases err with
      | awserr code text =>
        simp only []
        split_ifs <;> simp
      | other text => simp

/-- C11 with the codes of the AWS library: one service for each provider code, one for
an unknown provider code, one for an error that is not a provider error, and two that
succeed, with and without a message id. -/
theorem C11_process_error_mapping_witness :
    awsErrCodes.distinct ∧
      ((serviceReturning (SendEmailResult.failed
          (SendEmailError.awserr "MessageRejected" "rejected"))).Process
        awsErrCodes testContactForm 0).err = some AwsSesRejectedMessageError ∧
      ((serviceReturning (SendEmailResult.failed
          (SendEmailError.awserr "MailFromDomainNotVerifiedException" "domain"))).Process
        awsErrCodes testContactForm 0).err = some AwsSesMailFromDomainNotVerifiedError ∧
      ((serviceReturning (SendEmailResult.failed
          (SendEmailError.awserr "ConfigurationSetDoesNotExist" "set"))).Process
        awsErrCodes testContactForm 0).err = some AwsSesConfigurationSetDoesNotExistError ∧
      ((serviceReturning (SendEmailResult.failed
          (SendEmailError.awserr "Throttling" "slow down"))).Process
        awsErrCodes testContactForm 0).err = some AwsSesUnknownError ∧
      ((serviceReturning (SendEmailResult.failed (SendEmailError.other "timeout"))).Process
        awsErrCodes testContactForm 0).err = some AwsSesUnknownError ∧
      ((serviceReturning (SendEmailResult.ok { MessageId := some "0100" })).Process
        awsErrCodes testContactForm 0).err = none ∧
      ((serviceReturning (SendEmailResult.ok { MessageId := none })).Process
        awsErrCodes testContactForm 0).err = none :=
  ⟨by decide,
    ((C11_process_error_mapping awsErrCodes (by decide) (serviceReturning _)
      testContactForm 0).1 _ _ rfl).1 rfl,
    ((C11_process_error_mapping awsErrCodes (by decide) (serviceReturning _)
      testContactForm 0).1 _ _ rfl).2.1 rfl,
    ((C11_process_error_mapping awsErrCodes (by decide) (serviceReturning _)
      testContactForm 0).1 _ _ rfl).2.2.1 rfl,
    ((C11_process_error_mapping awsErrCodes (by decide) (serviceReturning _)
      testContactForm 0).1 _ _ rfl).2.2.2 (by decide) (by decide) (by decide),
    (C11_process_error_mapping awsErrCodes (by decide) (serviceReturning _)
      testContactForm 0).2.1 _ rfl,
    (C11_process_error_mapping awsErrCodes (by decide) (serviceReturning _)
      testContactForm 0).2.2.2.2 ⟨_, rfl⟩,
    (C11_process_error_mapping awsErrCodes (by decide) (serviceReturning _)
      testContactForm 0).2.2.2.2 ⟨_, rfl⟩⟩

/-- C12: the body of the email is the template with the five fields written in, as
they are, in the order Name, Email, Company, Contact Number, Message, and it does not
depend on the challenge token. -/
theorem C12_email_body (contactForm : ContactForm) :
    contactFormToEmailBody contactForm =
        "\n" ++ "Name: " ++ contactForm.Name ++ "\n" ++ "Email: " ++ contactForm.Email ++
          "\n" ++ "Company: " ++ contactForm.Company ++ "\n" ++
          "Contact Number: " ++ contactForm.Number ++ "\n" ++
          "Message: " ++ contactForm.Message ++ "\n" ∧
      ∀ token : String,
        contactFormToEmailBody { contactForm with RecaptchaResponse := token } =
          contactFormToEmailBody contactForm :=
  ⟨contactFormToEmailBody_eq contactForm, fun _ => rfl⟩

/-! ## The challenge verifier -/

/-- The four tags are assigned to their own fields. -/
theorem lookupField_tags :
    lookupField "success" = some Field.Success ∧
      lookupField "challenge_ts" = some Field.ChallengeTimestamp ∧
      lookupField "hostname" = some Field.HostName ∧
      lookupField "error-codes" = some Field.ErrorCodes := by
  decide

/-- An array of JSON strings is read into the strings, in order. -/
theorem map_elemString_strings (codes : List String) :
    (codes.map Json.string).map elemString = codes := by
  induction codes with
  | nil => rfl
  | cons c codes ih =>
    simp only [List.map_cons, elemString, ih]

/-- Reading an array of JSON strings records no error. -/
theorem findSome_elemError_strings (codes : List String) :
    (codes.map Json.string).findSome? elemError = none := by
  induction codes with
  | nil => rfl
  | cons c codes ih => simp [List.findSome?, elemError, ih]

/-- The decoding of a member leaves alone the fields that its key is not assigned
to. -/
theorem decodeMember_keeps {Time : Type} (time : TimeLib Time) (key : String) (value : Json)
    (r : RecaptchaResponse Time) :
    (lookupField key ≠ some Field.Success →
        (decodeMember time key value r).struct.Success = r.Success) ∧
      (lookupField key ≠ some Field.ChallengeTimestamp →
        (decodeMember time key value r).struct.ChallengeTimestamp = r.ChallengeTimestamp) ∧
      (lookupField key ≠ some Field.HostName →
        (decodeMember time key value r).struct.HostName = r.HostName) ∧
      (lookupField key ≠ some Field.ErrorCodes →
        (decodeMember time key value r).struct.ErrorCodes = r.ErrorCodes) := by
  unfold decodeMember
  rcases hf : lookupField key with _ | f
  · simp [MemberResult.struct]
  · cases f
    · cases value <;> simp [MemberResult.struct]
    · cases value with
      | string s => cases hp : time.parseRFC3339 s <;> simp [MemberResult.struct, hp]
      | _ => simp [MemberResult.struct]
    · cases value <;> simp [MemberResult.struct]
    · cases value <;> simp [MemberResult.struct]

/-- The decoding of an object leaves alone the fields whose keys are absent. -/
theorem decodeMembers_keeps {Time : Type} (time : TimeLib Time)
    (members : List (String × Json)) :
    ∀ (r : RecaptchaResponse Time) (saved : GoError),
      (keyAbsent Field.Success members →
          (decodeMembers time members r saved).1.Success = r.Success) ∧
        (keyAbsent Field.ChallengeTimestamp members →
          (decodeMembers time members r saved).1.ChallengeTimestamp = r.ChallengeTimestamp) ∧
        (keyAbsent Field.HostName members →
          (decodeMembers time members r saved).1.HostName = r.HostName) ∧
        (keyAbsent Field.ErrorCodes members →
          (decodeMembers time members r saved).1.ErrorCodes = r.ErrorCodes) := by
  induction members with
  | nil => intro r saved; simp [decodeMembers]
  | cons kv rest ih =>
    intro r saved
    obtain ⟨key, value⟩ := kv
    have hk := decodeMember_keeps time key value r
    have habs : ∀ f, keyAbsent f ((key, value) :: rest) →
        lookupField key ≠ some f ∧ keyAbsent f rest := by
      intro f h
      exact ⟨h (key, value) (by simp), fun kv hkv => h kv (List.mem_cons_of_mem _ hkv)⟩
    simp only [decodeMembers]
    rcases hm : decodeMember time key value r with ⟨r1, err⟩ | ⟨r1, err⟩
    · rw [hm] at hk
      simp only [MemberResult.struct] at hk
      have ih1 := ih r1 (saved.orElse fun _ => err)
      refine ⟨fun h => ?_, fun h => ?_, fun h => ?_, fun h => ?_⟩
      · rw [ih1.1 (habs _ h).2, hk.1 (habs _ h).1]
      · rw [ih1.2.1 (habs _ h).2, hk.2.1 (habs _ h).1]
      · rw [ih1.2.2.1 (habs _ h).2, hk.2.2.1 (habs _ h).1]
      · rw [ih1.2.2.2 (habs _ h).2, hk.2.2.2 (habs _ h).1]
    · rw [hm] at hk
      simp only [MemberResult.struct] at hk
      exact ⟨fun h => hk.1 (habs _ h).1, fun h => hk.2.1 (habs _ h).1,
        fun h => hk.2.2.1 (habs _ h).1, fun h => hk.2.2.2 (habs _ h).1⟩

/-- The member `success` with a JSON boolean sets the field `Success`. -/
theorem decodeMember_success {Time : Type} (time : TimeLib Time) (b : Bool)
    (r : RecaptchaResponse Time) :
    decodeMember time "success" (Json.bool b) r =
      MemberResult.next { r with Success := b } none := by
  unfold decodeMember
  rw [lookupField_tags.1]

/-- The member `challenge_ts` with a string that parses sets the field
`ChallengeTimestamp`. -/
theorem decodeMember_challenge_ts {Time : Type} (time : TimeLib Time) (ts : String) (t : Time)
    (ht : time.parseRFC3339 ts = some t) (r : RecaptchaResponse Time) :
    decodeMember time "challenge_ts" (Json.string ts) r =
      MemberResult.next { r with ChallengeTimestamp := t } none := by
  unfold decodeMember
  rw [lookupField_tags.2.1]
  simp only [ht]

/-- The member `hostname` with a JSON string sets the field `HostName`. -/
theorem decodeMember_hostname {Time : Type} (time : TimeLib Time) (h : String)
    (r : RecaptchaResponse Time) :
    decodeMember time "hostname" (Json.string h) r =
      MemberResult.next { r with HostName := h } none := by
  unfold decodeMember
  rw [lookupField_tags.2.2.1]

/-- The member `error-codes` with an array of JSON strings sets the field `ErrorCodes`
to the strings, in order. -/
theorem decodeMember_error_codes {Time : Type} (time : TimeLib Time) (codes : List String)
    (r : RecaptchaResponse Time) :
    decodeMember time "error-codes" (Json.array (codes.map Json.string)) r =
      MemberResult.next { r with ErrorCodes := some codes } none := by
  unfold decodeMember
  rw [lookupField_tags.2.2.2]
  simp only [map_elemString_strings, findSome_elemError_strings]

/-- C14: decoding a verifier object into the blank response sets `Success`,
`ChallengeTimestamp` (the RFC3339 reading of the text) and `HostName` from the keys
success, challenge_ts and hostname, and `ErrorCodes` to the strings of the array
error-codes in order; without the key error-codes, `ErrorCodes` stays the empty slice
that is not nil, of length 0; and any other absent key leaves its default: false, the
zero time, the empty string. -/
theorem C14_decode_response {Time : Type} (time : TimeLib Time) (b : Bool) (ts h : String)
    (t : Time) (codes : List String) (ht : time.parseRFC3339 ts = some t) :
    Unmarshal time
        (Json.object [("success", Json.bool b), ("challenge_ts", Json.string ts),
          ("hostname", Json.string h), ("error-codes", Json.array (codes.map Json.string))])
        (NewBlankRecaptchaResponse time) =
        ({ Success := b, ChallengeTimestamp := t, HostName := h, ErrorCodes := some codes },
          none) ∧
      Unmarshal time
        (Json.object [("success", Json.bool b), ("challenge_ts", Json.string ts),
          ("hostname", Json.string h)])
        (NewBlankRecaptchaResponse time) =
        ({ Success := b, ChallengeTimestamp := t, HostName := h, ErrorCodes := some [] },
          none) ∧
      (∀ members, keyAbsent Field.ErrorCodes members →
        (Unmarshal time (Json.object members) (NewBlankRecaptchaResponse time)).1.ErrorCodes =
            some [] ∧
          ∃ slice,
            (Unmarshal time (Json.object members)
              (NewBlankRecaptchaResponse time)).1.ErrorCodes = some slice ∧
            slice.length = 0) ∧
      (∀ members, keyAbsent Field.Success members →
        (Unmarshal time (Json.object members) (NewBlankRecaptchaResponse time)).1.Success =
          false) ∧
      (∀ members, keyAbsent Field.ChallengeTimestamp members →
        (Unmarshal time (Json.object members)
          (NewBlankRecaptchaResponse time)).1.ChallengeTimestamp = time.zero) ∧
      (∀ members, keyAbsent Field.HostName members →
        (Unmarshal time (Json.object members) (NewBlankRecaptchaResponse time)).1.HostName =
          "") := by
  refine ⟨?_, ?_, fun members habs => ?_, fun members habs => ?_, fun members habs => ?_,
    fun members habs => ?_⟩
  · simp [Unmarshal, decodeMembers, decodeMember_success,
      decodeMember_challenge_ts time ts t ht, decodeMember_hostname, decodeMember_error_codes,
      NewBlankRecaptchaResponse]
  · simp [Unmarshal, decodeMembers, decodeMember_success,
      decodeMember_challenge_ts time ts t ht, decodeMember_hostname, NewBlankRecaptchaResponse]
  · have hkeep := (decodeMembers_keeps time members (NewBlankRecaptchaResponse time)
      none).2.2.2 habs
    exact ⟨hkeep, [], hkeep, rfl⟩
  · exact (decodeMembers_keeps time members (NewBlankRecaptchaResponse time) none).1 habs
  · exact (decodeMembers_keeps time members (NewBlankRecaptchaResponse time) none).2.1 habs
  · exact (decodeMembers_keeps time members (NewBlankRecaptchaResponse time) none).2.2.1 habs

/-- C14 at the two JSON objects of the tests of the repository. -/
theorem C14_decode_response_witness :
    testTimeLib.parseRFC3339 "2018-08-08T13:32:16Z" = some 1533735136 ∧
      Unmarshal testTimeLib errorJson (NewBlankRecaptchaResponse testTimeLib) =
        ({ Success := false, ChallengeTimestamp := 1533735136, HostName := "localhost",
           ErrorCodes := some ["missing-input-secret", "missing-input-response"] }, none) ∧
      Unmarshal testTimeLib
        (Json.object [("success", Json.bool false),
          ("challenge_ts", Json.string "2018-08-08T13:32:16Z"),
          ("hostname", Json.string "localhost")])
        (NewBlankRecaptchaResponse testTimeLib) =
        ({ Success := false, ChallengeTimestamp := 1533735136, HostName := "localhost",
           ErrorCodes := some [] }, none) ∧
      keyAbsent Field.ErrorCodes
        [("success", Json.bool true), ("challenge_ts", Json.string "2018-08-08T13:32:16Z"),
          ("hostname", Json.string "localhost")] ∧
      (Unmarshal testTimeLib successJson (NewBlankRecaptchaResponse testTimeLib)).1.ErrorCodes =
        some [] :=
  ⟨rfl,
    (C14_decode_response testTimeLib false "2018-08-08T13:32:16Z" "localhost" 1533735136
      ["missing-input-secret", "missing-input-response"] rfl).1,
    (C14_decode_response testTimeLib false "2018-08-08T13:32:16Z" "localhost" 1533735136
      ["missing-input-secret", "missing-input-response"] rfl).2.1,
    by decide,
    ((C14_decode_response testTimeLib false "2018-08-08T13:32:16Z" "localhost" 1533735136
      [] rfl).2.2.1 _ (by decide)).1⟩

/-- The error returned by `Verify` once the request is built, by the result of the HTTP
client and of the decoding. -/
theorem Verify_err {σ Time : Type} (net : NetLib) (time : TimeLib Time)
    (rs : DefaultRecaptchaService σ) (response : String) (w : σ) (request : Request)
    (hreq : net.NewRequest "POST" (requestURL net rs.Secret response) = Except.ok request) :
    (rs.Verify net time response w).err =
      match (rs.Do request w).1 with
      | DoResult.failed _ => some CannotCommunicateRecaptchaError
      | DoResult.response (Body.invalid _) => some CannotCommunicateRecaptchaError
      | DoResult.response (Body.value v) =>
        match (Unmarshal time v (NewBlankRecaptchaResponse time)).2 with
        | some _ => some CannotCommunicateRecaptchaError
        | none =>
          if (Unmarshal time v (NewBlankRecaptchaResponse time)).1.Success = false then
            some NotVerifiedError
          else none := by
  unfold DefaultRecaptchaService.Verify
  rw [hreq]
  rcases hdo : rs.Do request w with ⟨result, w1⟩
  cases result with
  | failed text => simp [hdo]
  | response body =>
    cases body with
    | invalid text => simp [hdo]
    | value v =>
      rcases hun : Unmarshal time v (NewBlankRecaptchaResponse time) with ⟨r, _ | text⟩
      · cases hs : r.Success <;> simp [hdo, hun, hs]
      · simp [hdo, hun]

/-- C13: once the request is built, `Verify` returns the CommunicationFailure error,
and not the underlying one, when the HTTP client returns a transport error, when the
body holds no JSON value and when the value does not decode into the response; it
returns the NotVerified error when the value decodes with success false, in particular
when the key success is absent; and it returns no error when the value decodes with
success true, whatever the other fields are. -/
theorem C13_verify_outcomes {σ Time : Type} (net : NetLib) (time : TimeLib Time)
    (rs : DefaultRecaptchaService σ) (response : String) (w : σ) (request : Request)
    (hreq : net.NewRequest "POST" (requestURL net rs.Secret response) = Except.ok request) :
    (∀ text, (rs.Do request w).1 = DoResult.failed text →
        (rs.Verify net time response w).err = some CannotCommunicateRecaptchaError) ∧
      (∀ text, (rs.Do request w).1 = DoResult.response (Body.invalid text) →
        (rs.Verify net time response w).err = some CannotCommunicateRecaptchaError) ∧
      (∀ v text, (rs.Do request w).1 = DoResult.response (Body.value v) →
        (Unmarshal time v (NewBlankRecaptchaResponse time)).2 = some text →
        (rs.Verify net time response w).err = some CannotCommunicateRecaptchaError) ∧
      (∀ v, (rs.Do request w).1 = DoResult.response (Body.value v) →
        (Unmarshal time v (NewBlankRecaptchaResponse time)).2 = none →
        (Unmarshal time v (NewBlankRecaptchaResponse time)).1.Success = false →
        (rs.Verify net time response w).err = some NotVerifiedError) ∧
      (∀ members,
        (rs.Do request w).1 = DoResult.response (Body.value (Json.object members)) →
        (Unmarshal time (Json.object members) (NewBlankRecaptchaResponse time)).2 = none →
        keyAbsent Field.Success members →
        (rs.Verify net time response w).err = some NotVerifiedError) ∧
      (∀ v, (rs.Do request w).1 = DoResult.response (Body.value v) →
        (Unmarshal time v (NewBlankRecaptchaResponse time)).2 = none →
        (Unmarshal time v (NewBlankRecaptchaResponse time)).1.Success = true →
        (rs.Verify net time response w).err = none) := by
  rw [Verify_err net time rs response w request hreq]
  refine ⟨fun text hdo => ?_, fun text hdo => ?_, fun v text hdo herr => ?_,
    fun v hdo herr hs => ?_, fun members hdo herr habs => ?_, fun v hdo herr hs => ?_⟩
  · simp [hdo]
  · simp [hdo]
  · simp [hdo, herr]
  · simp [hdo, herr, hs]
  · have hs := (decodeMembers_keeps time members (NewBlankRecaptchaResponse time) none).1 habs
    have hs2 : (Unmarshal time (Json.object members)
        (NewBlankRecaptchaResponse time)).1.Success = false := hs
    simp [hdo, herr, hs2]
  · simp [hdo, herr, hs]

/-- C13 with the toy libraries: a transport error, a body that is not JSON, a value of
the wrong kind, the rejecting object of the tests, an object without the key success,
and the accepting object of the tests. -/
theorem C13_verify_outcomes_witness :
    ((recaptchaReturning (DoResult.failed "timeout")).Verify testNetLib testTimeLib
        "token" 0).err = some CannotCommunicateRecaptchaError ∧
      ((recaptchaReturning (DoResult.response (Body.invalid "unexpected EOF"))).Verify
        testNetLib testTimeLib "token" 0).err = some CannotCommunicateRecaptchaError ∧
      ((recaptchaReturning (DoResult.response (Body.value (Json.number "1")))).Verify
        testNetLib testTimeLib "token" 0).err = some CannotCommunicateRecaptchaError ∧
      ((recaptchaReturning (DoResult.response (Body.value errorJson))).Verify
        testNetLib testTimeLib "token" 0).err = some NotVerifiedError ∧
      ((recaptchaReturning (DoResult.response
          (Body.value (Json.object [("hostname", Json.string "localhost")])))).Verify
        testNetLib testTimeLib "token" 0).err = some NotVerifiedError ∧
      ((recaptchaReturning (DoResult.response (Body.value successJson))).Verify
        testNetLib testTimeLib "token" 0).err = none :=
  ⟨(C13_verify_outcomes testNetLib testTimeLib (recaptchaReturning _) "token" 0 _ rfl).1
      _ rfl,
    (C13_verify_outcomes testNetLib testTimeLib (recaptchaReturning _) "token" 0 _ rfl).2.1
      _ rfl,
    (C13_verify_outcomes testNetLib testTimeLib (recaptchaReturning _) "token" 0 _
      rfl).2.2.1 _ _ rfl rfl,
    (C13_verify_outcomes testNetLib testTimeLib (recaptchaReturning _) "token" 0 _
      rfl).2.2.2.1 _ rfl (by decide) (by decide),
    (C13_verify_outcomes testNetLib testTimeLib (recaptchaReturning _) "token" 0 _
      rfl).2.2.2.2.1 _ rfl (by decide) (by decide),
    (C13_verify_outcomes testNetLib testTimeLib (recaptchaReturning _) "token" 0 _
      rfl).2.2.2.2.2 _ rfl (by decide) (by decide)⟩

/-! ## What crosses the HTTP boundary -/

/-- The body written by the handler, in every outcome. -/
theorem postContact_body {σ : Type} (ctx : AppContext σ) (formValue : String → String)
    (w : σ) : (postContact ctx formValue w).body = emptyStringJSON := by
  unfold postContact
  by_cases hv : validateStruct (contactFormSubmission formValue) = []
  · rcases hver : ctx.Verify (contactFormSubmission formValue).RecaptchaResponse w with
      ⟨_ | e, w1⟩
    · rcases hpro : ctx.Process (contactFormSubmission formValue) w1 with ⟨_ | e, w2⟩ <;>
        simp [hv, hver, hpro]
    · by_cases h1 : e = CannotCommunicateRecaptchaError
      · simp [hv, hver, h1]
      · by_cases h2 : e = NotVerifiedError <;>
          simp [hv, hver, h1, h2, notVerified_ne_cannotCommunicate]
  · simp [hv]

/-- The status written by the handler is one of 200, 400, 403 and 500. -/
theorem postContact_status_mem {σ : Type} (ctx : AppContext σ)
    (formValue : String → String) (w : σ) :
    (postContact ctx formValue w).status ∈ [200, 400, 403, 500] := by
  rw [postContact_status]
  by_cases hv : validateStruct (contactFormSubmission formValue) = []
  · rcases hver : (ctx.Verify (contactFormSubmission formValue).RecaptchaResponse w).1 with
      _ | e
    · rcases hpro : (ctx.Process (contactFormSubmission formValue)
        (ctx.Verify (contactFormSubmission formValue).RecaptchaResponse w).2).1 with _ | e <;>
        simp [hv, hpro]
    · simp only [hv, ne_eq, not_true_eq_false, if_false]
      split_ifs <;> simp
  · simp [hv]

/-- C15: the body written by the handler is the same fixed value, the JSON encoding of
the empty string, in all its outcomes, and the status is one of 200, 400, 403 and 500;
so two requests that end with the same status receive the same response, whatever the
submitted fields and whatever the collaborators did or reported. -/
theorem C15_no_error_detail {σ τ : Type} (ctx : AppContext σ) (ctx2 : AppContext τ)
    (formValue formValue2 : String → String) (w : σ) (w2 : τ) :
    (postContact ctx formValue w).body = emptyStringJSON ∧
      (postContact ctx formValue w).status ∈ [200, 400, 403, 500] ∧
      ((postContact ctx formValue w).status = (postContact ctx2 formValue2 w2).status →
        ((postContact ctx formValue w).status, (postContact ctx formValue w).body) =
          ((postContact ctx2 formValue2 w2).status, (postContact ctx2 formValue2 w2).body)) := by
  refine ⟨postContact_body ctx formValue w, postContact_status_mem ctx formValue w, ?_⟩
  intro h
  rw [h, postContact_body ctx formValue w, postContact_body ctx2 formValue2 w2]

/-- C15 at two requests that both end with 500: one whose verifier cannot be reached
and one whose sender rejects the message. -/
theorem C15_no_error_detail_witness :
    (postContact (stubsReturning (some CannotCommunicateRecaptchaError) none)
        filledForm 0).status =
        (postContact (stubsReturning none (some AwsSesRejectedMessageError))
          formWithBadEmail 7).status ∧
      ((postContact (stubsReturning (some CannotCommunicateRecaptchaError) none)
          filledForm 0).status,
        (postContact (stubsReturning (some CannotCommunicateRecaptchaError) none)
          filledForm 0).body) =
      ((postContact (stubsReturning none (some AwsSesRejectedMessageError))
          formWithBadEmail 7).status,
        (postContact (stubsReturning none (some AwsSesRejectedMessageError))
          formWithBadEmail 7).body) :=
  ⟨by decide,
    (C15_no_error_detail (stubsReturning (some CannotCommunicateRecaptchaError) none)
      (stubsReturning none (some AwsSesRejectedMessageError)) filledForm formWithBadEmail
      0 7).2.2 (by decide)⟩

/-- C16, evaluated on the code: at the submission of the test, whose challenge token is
empty, with collaborators that both succeed, the handler answers 400; with a token it
answers 200; and no run of the handler answers 201. -/
theorem C16_never_201 :
    (postContact (stubsReturning none none) testFormValue 0).status = 400 ∧
      (postContact (stubsReturning none none) filledForm 0).status = 200 ∧
      ∀ {σ : Type} (ctx : AppContext σ) (formValue : String → String) (w : σ),
        (postContact ctx formValue w).status ≠ 201 := by
  refine ⟨by decide, by decide, ?_⟩
  intro σ ctx formValue w h
  have hmem := postContact_status_mem ctx formValue w
  rw [h] at hmem
  simp at hmem

end SeaCity
